import Mathlib

/-!
Verification development for the claims-aggregation and MRF-generation
pipeline of the frontend-challenge-1 repository.

The TypeScript sources are shallowly embedded as executable Lean
definitions:

* JavaScript numbers are modelled by `JsNum` (NaN or a finite rational);
  floating-point rounding error and overflow are outside the model, and
  every concrete value appearing in the claims is exactly representable.
* JavaScript strings are Lean `String`s; the string operations the code
  uses (`trim`, `toLowerCase`, joining) are re-implemented over `List Char`
  so that they compute by kernel reduction.
* A JavaScript `Map` (and a plain object used as a map) is modelled as an
  insertion-ordered association list `List (String × α)` with an
  insert-or-update operation `upsert` that preserves the position of an
  existing key, exactly like `Map.set`.
* A JavaScript `Set<string>` is an insertion-ordered duplicate-free
  `List String` built with `setAdd`.
* `Array.prototype.sort` with a comparator is modelled as a stable
  insertion sort by the same comparator (JS engines guarantee a stable
  sort; `String.prototype.localeCompare` is modelled as code-point order,
  which is adequate because every property proved below is invariant
  under the particular total order used).
-/

/-- JavaScript number: NaN or a finite rational.  `Number.NaN` is used by
the store as an explicit no-data sentinel for group averages. -/
inductive JsNum where
  | nan : JsNum
  | num (q : ℚ) : JsNum
deriving DecidableEq

/-- Model of the JavaScript coercion `Number(x) || 0`: NaN (and 0 itself)
collapse to 0, any other finite value is kept. -/
def JsNum.orZero : JsNum → ℚ
  | JsNum.nan => 0
  | JsNum.num q => q

instance : Inhabited JsNum := ⟨JsNum.nan⟩

/-- Lower-case an ASCII letter, leave every other character unchanged
(model of the effect of `String.prototype.toLowerCase` on the data in
this pipeline). -/
def lcChar (c : Char) : Char :=
  if 'A' ≤ c ∧ c ≤ 'Z' then Char.ofNat (c.toNat + 32) else c

/-- Model of `String.prototype.toLowerCase`. -/
def jsToLower (s : String) : String := String.mk (s.data.map lcChar)

/-- Whitespace characters removed by `String.prototype.trim`. -/
def isWsChar (c : Char) : Bool := c = ' ' || c = '\t' || c = '\n' || c = '\r'

/-- Model of `String.prototype.trim`. -/
def jsTrim (s : String) : String :=
  String.mk (((s.data.dropWhile isWsChar).reverse.dropWhile isWsChar).reverse)

/-- Join a list of strings with a separator, as `Array.prototype.join`. -/
def joinSep (sep : String) : List String → String
  | [] => ""
  | p :: ps => ps.foldl (fun acc q => acc ++ sep ++ q) p

/-- Code-point comparison of character lists. -/
def cmpChars : List Char → List Char → Ordering
  | [], [] => Ordering.eq
  | [], _ :: _ => Ordering.lt
  | _ :: _, [] => Ordering.gt
  | a :: as, b :: bs =>
    match compare a.toNat b.toNat with
    | Ordering.eq => cmpChars as bs
    | o => o

/-- Model of `String.prototype.localeCompare` as code-point order. -/
def cmpStr (a b : String) : Ordering := cmpChars a.data b.data

/-- Insert into an insertion-ordered set (model of `Set.prototype.add`). -/
def setAdd (l : List String) (s : String) : List String :=
  if s ∈ l then l else l ++ [s]

/-- Insert-or-update on an insertion-ordered association list: the model of
`Map.prototype.set` following a `Map.prototype.get`.  An existing key keeps
its position; a new key is appended. -/
def upsert (m : List (String × α)) (k : String) (f : Option α → α) : List (String × α) :=
  match m with
  | [] => [(k, f none)]
  | (k', v) :: rest => if k' = k then (k', f (some v)) :: rest else (k', v) :: upsert rest k f

/-- Generic grouping fold shared by every `Map`-building loop in the source:
walk the input in order and `upsert` each element into the bucket named by
its key, updating an existing bucket with `g` or starting a fresh one from
`init`. -/
def foldUp (key : α → String) (init : α → β) (g : β → α → β) (xs : List α) :
    List (String × β) :=
  xs.foldl (fun mp x => upsert mp (key x) (fun o => g (o.getD (init x)) x)) []

/-- Per-key trace of `foldUp`: folding the elements of one bucket starting
from an optional existing bucket. -/
def chainUp (init : α → β) (g : β → α → β) (o : Option β) (xs : List α) : Option β :=
  xs.foldl (fun acc x => some (g (acc.getD (init x)) x)) o

/-- Round a rational to 2 decimal places the way
`Number(value.toFixed(2))` does (ties go to the larger candidate).  The
source returns 0 for non-finite inputs; in the rational model every input
to this function is finite. -/
def roundCurrency (value : ℚ) : ℚ := ((⌊100 * value + 1 / 2⌋ : ℤ) : ℚ) / 100

namespace Frontend

/-- Billing class of a claim as derived by the store. -/
inductive BillingClass where
  | professional : BillingClass
  | institutional : BillingClass
deriving DecidableEq

/-- Display string of a billing class (the TypeScript value is the string
itself). -/
def BillingClass.str : BillingClass → String
  | BillingClass.professional => "professional"
  | BillingClass.institutional => "institutional"

/-- Grouping methodologies offered by the store (`GroupingMethod`). -/
inductive GroupingMethod where
  | mrf : GroupingMethod
  | providerProcedure : GroupingMethod
  | provider : GroupingMethod
  | procedure : GroupingMethod
  | planProcedure : GroupingMethod
deriving DecidableEq

/-- Fields that can contribute to a grouping key (`GroupKeyField`). -/
inductive GroupKeyField where
  | customerId : GroupKeyField
  | providerId : GroupKeyField
  | procedureCode : GroupKeyField
  | billingClass : GroupKeyField
  | serviceCode : GroupKeyField
  | planId : GroupKeyField
deriving DecidableEq

/-- Key fields of each grouping methodology, in order
(`GROUPING_DEFINITIONS[*].keyFields`). -/
def keyFields : GroupingMethod → List GroupKeyField
  | GroupingMethod.mrf =>
      [GroupKeyField.customerId, GroupKeyField.providerId, GroupKeyField.procedureCode,
        GroupKeyField.billingClass, GroupKeyField.serviceCode]
  | GroupingMethod.providerProcedure =>
      [GroupKeyField.customerId, GroupKeyField.providerId, GroupKeyField.procedureCode,
        GroupKeyField.billingClass]
  | GroupingMethod.provider =>
      [GroupKeyField.customerId, GroupKeyField.providerId, GroupKeyField.billingClass]
  | GroupingMethod.procedure =>
      [GroupKeyField.customerId, GroupKeyField.procedureCode, GroupKeyField.billingClass]
  | GroupingMethod.planProcedure =>
      [GroupKeyField.customerId, GroupKeyField.planId, GroupKeyField.procedureCode,
        GroupKeyField.billingClass]

/-- One parsed claim row of the store (`ClaimRow`), restricted to the
fields the grouping, eligibility and approval logic reads.  `isValid` is
the stored validity flag maintained by the validator. -/
structure ClaimRow where
  id : String
  claimStatus : String
  groupName : String
  groupId : String
  planName : String
  planId : String
  placeOfService : String
  claimType : String
  procedureCode : String
  providerId : String
  providerName : String
  billed : JsNum
  allowed : JsNum
  paid : JsNum
  isValid : Bool
deriving DecidableEq

/-- Place-of-service lookup table `SERVICE_CODE_MAP`. -/
def SERVICE_CODE_MAP : List (String × String) :=
  [("inpatient hospital", "21"), ("outpatient hospital", "22"),
   ("emergency room - hospital", "23"), ("ambulatory surgical center", "24"),
   ("urgent care", "20"), ("office", "11")]

/-- Source `getBillingClass`. -/
def getBillingClass (claimType : String) : BillingClass :=
  if jsToLower (jsTrim claimType) = "professional" then BillingClass.professional
  else BillingClass.institutional

/-- Source `getServiceCode`: map place of service to a code, defaulting to
"99". -/
def getServiceCode (placeOfService : String) : String :=
  (List.lookup (jsToLower (jsTrim placeOfService)) SERVICE_CODE_MAP).getD "99"

/-- Source `getCustomerId`: trimmed group id, else trimmed group name,
else "unknown". -/
def getCustomerId (claim : ClaimRow) : String :=
  if jsTrim claim.groupId ≠ "" then jsTrim claim.groupId
  else if jsTrim claim.groupName ≠ "" then jsTrim claim.groupName
  else "unknown"

/-- Source `DENIED_STATUSES`. -/
def DENIED_STATUSES : List String := ["denied", "reject", "rejected"]

/-- Source `isDeniedStatus`. -/
def isDeniedStatus (status : String) : Bool :=
  DENIED_STATUSES.contains (jsToLower (jsTrim status))

/-- Source `isEligibleClaim`: valid and not denied. -/
def isEligibleClaim (claim : ClaimRow) : Bool :=
  claim.isValid && !isDeniedStatus claim.claimStatus

/-- Source `normalizeKeyPart`: trim and fall back when empty. -/
def normalizeKeyPart (value : Option String) (fallback : String) : String :=
  match value with
  | none => fallback
  | some s => if jsTrim s = "" then fallback else jsTrim s

/-- Source `normalizeDisplayValue`. -/
def normalizeDisplayValue (value : String) (fallback : String := "Unknown") : String :=
  if jsTrim value = "" then fallback else jsTrim value

/-- Source `formatSetValue`: sole value, `Multiple (N)`, or a placeholder. -/
def formatSetValue (values : List String) (emptyLabel : String := "-") : String :=
  match values with
  | [] => emptyLabel
  | [v] => v
  | vs => "Multiple (" ++ toString vs.length ++ ")"

/-- Key parts record handed to `buildGroupKey` (`GroupKeyParts`). -/
structure GroupKeyParts where
  customerId : String
  providerId : String
  procedureCode : String
  billingClass : BillingClass
  serviceCode : Option String
  planId : String

/-- Source `buildGroupKey`: normalize the configured key fields in order and
join them with a pipe. -/
def buildGroupKey (groupingMethod : GroupingMethod) (parts : GroupKeyParts) : String :=
  joinSep "|" ((keyFields groupingMethod).map (fun field =>
    match field with
    | GroupKeyField.customerId => normalizeKeyPart (some parts.customerId) "unknown"
    | GroupKeyField.providerId => normalizeKeyPart (some parts.providerId) "unknown"
    | GroupKeyField.procedureCode => normalizeKeyPart (some parts.procedureCode) "unknown"
    | GroupKeyField.billingClass => normalizeKeyPart (some parts.billingClass.str) "unknown"
    | GroupKeyField.serviceCode => normalizeKeyPart parts.serviceCode "none"
    | GroupKeyField.planId => normalizeKeyPart (some parts.planId) "unknown"))

/-- Source `getGroupKey` for a claim under a grouping method. -/
def getGroupKey (claim : ClaimRow) (groupingMethod : GroupingMethod) : String :=
  let billingClass := getBillingClass claim.claimType
  let serviceCode :=
    if billingClass = BillingClass.professional then some (getServiceCode claim.placeOfService)
    else none
  buildGroupKey groupingMethod
    { customerId := getCustomerId claim
      providerId := claim.providerId
      procedureCode := claim.procedureCode
      billingClass := billingClass
      serviceCode := serviceCode
      planId := claim.planId }

/-- Aggregation record per pricing group (`GroupAccumulator`); the `Set`
fields are insertion-ordered duplicate-free lists. -/
structure GroupAccumulator where
  id : String
  customerId : String
  customerName : String
  providerIds : List String
  providerNames : List String
  procedureCodes : List String
  placeOfServices : List String
  billingClasses : List String
  claimTypes : List String
  serviceCodes : List String
  planIds : List String
  planNames : List String
  claimCount : Nat
  validClaimCount : Nat
  eligibleClaimCount : Nat
  invalidClaimCount : Nat
  deniedClaimCount : Nat
  sumAllowed : ℚ
  sumBilled : ℚ
  sumPaid : ℚ

/-- Fresh accumulator created when a claim first reaches a group key, with
the identity fields the source fills in at creation time
(`customerName` is the raw `claim.groupName || customerId`). -/
def freshAcc (key : String) (claim : ClaimRow) : GroupAccumulator :=
  let customerId := getCustomerId claim
  { id := key
    customerId := customerId
    customerName := if claim.groupName ≠ "" then claim.groupName else customerId
    providerIds := []
    providerNames := []
    procedureCodes := []
    placeOfServices := []
    billingClasses := []
    claimTypes := []
    serviceCodes := []
    planIds := []
    planNames := []
    claimCount := 0
    validClaimCount := 0
    eligibleClaimCount := 0
    invalidClaimCount := 0
    deniedClaimCount := 0
    sumAllowed := 0
    sumBilled := 0
    sumPaid := 0 }

/-- One iteration of the aggregation loop body of `buildGroupAccumulators`:
add a claim to an accumulator. -/
def addClaim (acc : GroupAccumulator) (claim : ClaimRow) : GroupAccumulator :=
  let billingClass := getBillingClass claim.claimType
  let serviceCode :=
    if billingClass = BillingClass.professional then some (getServiceCode claim.placeOfService)
    else none
  let denied := isDeniedStatus claim.claimStatus
  { acc with
    claimCount := acc.claimCount + 1
    providerIds := setAdd acc.providerIds (normalizeDisplayValue claim.providerId)
    providerNames := setAdd acc.providerNames (normalizeDisplayValue claim.providerName)
    procedureCodes := setAdd acc.procedureCodes (normalizeDisplayValue claim.procedureCode)
    placeOfServices := setAdd acc.placeOfServices (normalizeDisplayValue claim.placeOfService)
    billingClasses := setAdd acc.billingClasses billingClass.str
    claimTypes := setAdd acc.claimTypes (normalizeDisplayValue claim.claimType)
    planIds := setAdd acc.planIds (normalizeDisplayValue claim.planId)
    planNames := setAdd acc.planNames (normalizeDisplayValue claim.planName)
    serviceCodes :=
      match serviceCode with
      | some sc => if sc = "" then acc.serviceCodes else setAdd acc.serviceCodes sc
      | none => acc.serviceCodes
    validClaimCount := acc.validClaimCount + (if claim.isValid then 1 else 0)
    eligibleClaimCount := acc.eligibleClaimCount + (if claim.isValid && !denied then 1 else 0)
    sumAllowed := acc.sumAllowed + (if claim.isValid && !denied then claim.allowed.orZero else 0)
    sumBilled := acc.sumBilled + (if claim.isValid && !denied then claim.billed.orZero else 0)
    sumPaid := acc.sumPaid + (if claim.isValid && !denied then claim.paid.orZero else 0)
    invalidClaimCount := acc.invalidClaimCount + (if claim.isValid then 0 else 1)
    deniedClaimCount := acc.deniedClaimCount + (if denied then 1 else 0) }

/-- Source `buildGroupAccumulators`: one pass over the claims, keyed by
`getGroupKey` under the active grouping method. -/
def buildGroupAccumulators (claims : List ClaimRow) (groupingMethod : GroupingMethod) :
    List (String × GroupAccumulator) :=
  foldUp (getGroupKey · groupingMethod) (fun c => freshAcc (getGroupKey c groupingMethod) c)
    addClaim claims

/-- Source `buildGroupClaimMap`: group key to the claims carrying it, in
input order. -/
def buildGroupClaimMap (claims : List ClaimRow) (groupingMethod : GroupingMethod) :
    List (String × List ClaimRow) :=
  foldUp (getGroupKey · groupingMethod) (fun _ => []) (fun l c => l ++ [c]) claims

/-- Source `buildSearchText`: insertion-ordered set of lowercased tokens
joined by spaces. -/
def buildSearchText (group : GroupAccumulator) : String :=
  let addToken := fun (tokens : List String) (value : String) =>
    if jsTrim value = "" then tokens else setAdd tokens (jsToLower (jsTrim value))
  let tokens := addToken (addToken [] group.customerId) group.customerName
  let tokens := group.providerIds.foldl addToken tokens
  let tokens := group.providerNames.foldl addToken tokens
  let tokens := group.procedureCodes.foldl addToken tokens
  let tokens := group.placeOfServices.foldl addToken tokens
  let tokens := group.billingClasses.foldl addToken tokens
  let tokens := group.claimTypes.foldl addToken tokens
  let tokens := group.planIds.foldl addToken tokens
  let tokens := group.planNames.foldl addToken tokens
  let tokens := group.serviceCodes.foldl addToken tokens
  joinSep " " tokens

/-- Pricing-group summary shown in the grid (`PricingGroup`).  The average
fields carry the NaN sentinel through `JsNum`. -/
structure PricingGroup where
  id : String
  customerId : String
  customerName : String
  procedureCode : String
  providerId : String
  providerName : String
  planName : String
  planId : String
  placeOfService : String
  claimType : String
  billingClass : String
  serviceCode : Option String
  searchText : String
  claimCount : Nat
  validClaimCount : Nat
  eligibleClaimCount : Nat
  invalidClaimCount : Nat
  deniedClaimCount : Nat
  averageAllowed : JsNum
  averageBilled : JsNum
  averagePaid : JsNum
  approved : Bool
  isEligible : Bool
deriving DecidableEq

instance : Inhabited PricingGroup :=
  ⟨{ id := "", customerId := "", customerName := "", procedureCode := "", providerId := ""
     providerName := "", planName := "", planId := "", placeOfService := "", claimType := ""
     billingClass := "", serviceCode := none, searchText := "", claimCount := 0
     validClaimCount := 0, eligibleClaimCount := 0, invalidClaimCount := 0
     deniedClaimCount := 0, averageAllowed := JsNum.nan, averageBilled := JsNum.nan
     averagePaid := JsNum.nan, approved := false, isEligible := false }⟩

/-- Body of the summary construction inside `get groupSummaries`, for one
accumulator, given the current `groupApprovals` record. -/
def toSummary (groupApprovals : List (String × Bool)) (group : GroupAccumulator) :
    PricingGroup :=
  { id := group.id
    customerId := group.customerId
    customerName := group.customerName
    procedureCode := formatSetValue group.procedureCodes
    providerId := formatSetValue group.providerIds
    providerName := formatSetValue group.providerNames
    placeOfService := formatSetValue group.placeOfServices
    billingClass := formatSetValue group.billingClasses
    claimType := formatSetValue group.claimTypes
    planId := formatSetValue group.planIds
    planName := formatSetValue group.planNames
    serviceCode :=
      if group.serviceCodes.length > 0 then some (formatSetValue group.serviceCodes) else none
    searchText := buildSearchText group
    claimCount := group.claimCount
    validClaimCount := group.validClaimCount
    eligibleClaimCount := group.eligibleClaimCount
    invalidClaimCount := group.invalidClaimCount
    deniedClaimCount := group.deniedClaimCount
    averageAllowed :=
      if group.eligibleClaimCount > 0 then
        JsNum.num (roundCurrency (group.sumAllowed / group.eligibleClaimCount))
      else JsNum.nan
    averageBilled :=
      if group.eligibleClaimCount > 0 then
        JsNum.num (roundCurrency (group.sumBilled / group.eligibleClaimCount))
      else JsNum.nan
    averagePaid :=
      if group.eligibleClaimCount > 0 then
        JsNum.num (roundCurrency (group.sumPaid / group.eligibleClaimCount))
      else JsNum.nan
    approved := (List.lookup group.id groupApprovals).getD false
    isEligible :=
      decide (group.eligibleClaimCount > 0) && decide (group.invalidClaimCount = 0) &&
        decide (group.deniedClaimCount = 0) }

/-- Sort-value accessor table `GROUP_SORT_ACCESSORS`. -/
def sortAccessor (field : GroupKeyField) (group : PricingGroup) : List String :=
  match field with
  | GroupKeyField.customerId => [group.customerName, group.customerId]
  | GroupKeyField.providerId => [group.providerName, group.providerId]
  | GroupKeyField.procedureCode => [group.procedureCode]
  | GroupKeyField.billingClass => [group.billingClass]
  | GroupKeyField.serviceCode => [group.serviceCode.getD ""]
  | GroupKeyField.planId => [group.planName, group.planId]

/-- Source `compareSortValues`: element-wise case-insensitive comparison,
missing elements reading as the empty string. -/
def compareSortValues : List String → List String → Ordering
  | [], [] => Ordering.eq
  | l :: ls, [] =>
    match cmpStr (jsToLower l) "" with
    | Ordering.eq => compareSortValues ls []
    | o => o
  | [], r :: rs =>
    match cmpStr "" (jsToLower r) with
    | Ordering.eq => compareSortValues [] rs
    | o => o
  | l :: ls, r :: rs =>
    match cmpStr (jsToLower l) (jsToLower r) with
    | Ordering.eq => compareSortValues ls rs
    | o => o

/-- Comparator used to sort `groupSummaries`: the active methodology's key
fields in order, with the raw group id as final tie-break. -/
def cmpGroups (sortFields : List GroupKeyField) (left right : PricingGroup) : Ordering :=
  match sortFields with
  | [] => cmpStr left.id right.id
  | f :: fs =>
    match compareSortValues (sortAccessor f left) (sortAccessor f right) with
    | Ordering.eq => cmpGroups fs left right
    | o => o

/-- Source computed property `groupSummaries`, as a function of the claim
list, the grouping method and the `groupApprovals` record. -/
def groupSummaries (claims : List ClaimRow) (groupingMethod : GroupingMethod)
    (groupApprovals : List (String × Bool)) : List PricingGroup :=
  let groups := buildGroupAccumulators claims groupingMethod
  let summaries := groups.map (fun kv => toSummary groupApprovals kv.2)
  List.insertionSort
    (fun l r => cmpGroups (keyFields groupingMethod) l r ≠ Ordering.gt) summaries

/-- Store state relevant to grouping and approvals.  `approvedClaims` is the
claim-level approval record: the source object only ever holds `true`
values (ids are inserted on approval and deleted otherwise), so it is
modelled as the insertion-ordered list of approved claim ids.
`groupApprovals` is the derived group-level record, holding explicit
`false` entries just as the source writes them. -/
structure StoreState where
  claims : List ClaimRow
  groupingMethod : GroupingMethod
  approvedClaims : List String
  groupApprovals : List (String × Bool)
deriving DecidableEq

/-- Source private method `syncGroupApprovals`, as a function of the inputs
it reads: recompute the group-level record from the claim-level one.  One
entry per group: `false` outright for a group with no eligible claim or
any invalid or denied claim, otherwise true exactly when the group has
eligible claims and every one of them is individually approved. -/
def syncGroupApprovals (claims : List ClaimRow) (groupingMethod : GroupingMethod)
    (approvedClaims : List String) : List (String × Bool) :=
  let groups := buildGroupAccumulators claims groupingMethod
  let groupClaims := buildGroupClaimMap claims groupingMethod
  groups.map (fun kv =>
    (kv.1,
      if kv.2.eligibleClaimCount = 0 ∨ kv.2.invalidClaimCount > 0 ∨
          kv.2.deniedClaimCount > 0 then
        false
      else
        let eligibleClaims := ((List.lookup kv.1 groupClaims).getD []).filter isEligibleClaim
        decide (eligibleClaims.length > 0) &&
          eligibleClaims.all (fun c => approvedClaims.contains c.id)))

/-- Claim-level approval record rebuilt by `approveAllGroups`: walk the
groups, and for each group with eligible claims and no invalid or denied
claim, mark every eligible claim of the group. -/
def approvedIdsOf (claims : List ClaimRow) (groupingMethod : GroupingMethod) : List String :=
  let groups := buildGroupAccumulators claims groupingMethod
  let groupClaims := buildGroupClaimMap claims groupingMethod
  groups.foldl (fun acc kv =>
    if kv.2.eligibleClaimCount > 0 ∧ kv.2.invalidClaimCount = 0 ∧
        kv.2.deniedClaimCount = 0 then
      ((List.lookup kv.1 groupClaims).getD []).foldl
        (fun acc c => if isEligibleClaim c then setAdd acc c.id else acc) acc
    else acc) []

/-- Source action `approveAllGroups`: rebuild the claim-level approval
record from scratch, marking every eligible claim of every eligible group,
then resync the derived record. -/
def approveAllGroups (s : StoreState) : StoreState :=
  { s with
    approvedClaims := approvedIdsOf s.claims s.groupingMethod
    groupApprovals := syncGroupApprovals s.claims s.groupingMethod
      (approvedIdsOf s.claims s.groupingMethod) }

/-- Source action `clearGroupApprovals`. -/
def clearGroupApprovals (s : StoreState) : StoreState :=
  { s with
    approvedClaims := []
    groupApprovals := syncGroupApprovals s.claims s.groupingMethod [] }

/-- Source action `setGroupingMethod`: no-op when the method is unchanged,
otherwise switch and resync the derived record. -/
def setGroupingMethod (s : StoreState) (method : GroupingMethod) : StoreState :=
  if method = s.groupingMethod then s
  else
    { s with
      groupingMethod := method
      groupApprovals := syncGroupApprovals s.claims method s.approvedClaims }

/-- Group summaries as seen through a store state. -/
def storeGroupSummaries (s : StoreState) : List PricingGroup :=
  groupSummaries s.claims s.groupingMethod s.groupApprovals

end Frontend

namespace Backend

/-- Billing class as derived by the backend utils. -/
inductive BillingClass where
  | professional : BillingClass
  | institutional : BillingClass
deriving DecidableEq

/-- String value of a backend billing class. -/
def BillingClass.str : BillingClass → String
  | BillingClass.professional => "professional"
  | BillingClass.institutional => "institutional"

/-- Claim payload submitted to the backend (`ClaimInput`). -/
structure ClaimInput where
  claimId : String
  groupId : String
  groupName : String
  planName : String
  planId : String
  placeOfService : String
  claimType : String
  procedureCode : String
  providerId : String
  providerName : String
  billed : JsNum
  allowed : JsNum
  paid : JsNum
deriving DecidableEq

/-- Backend constant `BILLING_CODE_TYPE_VERSION`. -/
def BILLING_CODE_TYPE_VERSION : String := "2024"

/-- Backend `SERVICE_CODE_MAP` (identical to the frontend table). -/
def SERVICE_CODE_MAP : List (String × String) :=
  [("inpatient hospital", "21"), ("outpatient hospital", "22"),
   ("emergency room - hospital", "23"), ("ambulatory surgical center", "24"),
   ("urgent care", "20"), ("office", "11")]

/-- Backend `getBillingClass`. -/
def getBillingClass (claimType : String) : BillingClass :=
  if jsToLower (jsTrim claimType) = "professional" then BillingClass.professional
  else BillingClass.institutional

/-- Backend `getServiceCode`. -/
def getServiceCode (placeOfService : String) : String :=
  (List.lookup (jsToLower (jsTrim placeOfService)) SERVICE_CODE_MAP).getD "99"

/-- Letter test of `getBillingCodeType` (`/[a-zA-Z]/`). -/
def isAsciiLetter (c : Char) : Bool :=
  ('a' ≤ c && c ≤ 'z') || ('A' ≤ c && c ≤ 'Z')

/-- Backend `getBillingCodeType`: HCPCS when the code contains a letter,
else CPT. -/
def getBillingCodeType (procedureCode : String) : String :=
  if procedureCode.data.any isAsciiLetter then "HCPCS" else "CPT"

/-- Characters kept verbatim by `slugify` after lowercasing. -/
def isSlugChar (c : Char) : Bool :=
  ('a' ≤ c && c ≤ 'z') || ('0' ≤ c && c ≤ '9')

/-- Backend `slugify`: lowercase, collapse non-alphanumeric runs to single
hyphens, strip edge hyphens, defaulting to "unknown" when nothing
remains. -/
def slugify (value : String) : String :=
  let trimmed := jsToLower (jsTrim value)
  if trimmed = "" then "unknown"
  else
    let collapsed := trimmed.data.foldr
      (fun c acc =>
        if isSlugChar c then c :: acc
        else if acc.head? = some '-' then acc else '-' :: acc) []
    let slug := ((collapsed.dropWhile (· = '-')).reverse.dropWhile (· = '-')).reverse
    if slug = [] then "unknown" else String.mk slug

/-- Decimal digit test used by the `parseInt` model. -/
def isDigitChar (c : Char) : Bool := '0' ≤ c && c ≤ '9'

/-- Numeric value of a leading run of decimal digits, when there is one. -/
def parseDigits (l : List Char) : Option Nat :=
  match l.takeWhile isDigitChar with
  | [] => none
  | ds => some (ds.foldl (fun acc c => acc * 10 + (c.toNat - 48)) 0)

/-- Model of `Number.parseInt(s, 10)`: skip leading whitespace, accept an
optional sign, then read leading decimal digits; `none` models NaN. -/
def jsParseInt (s : String) : Option Int :=
  match s.data.dropWhile isWsChar with
  | '+' :: rest => (parseDigits rest).map (fun n => (n : Int))
  | '-' :: rest => (parseDigits rest).map (fun n => -(n : Int))
  | rest => (parseDigits rest).map (fun n => (n : Int))

/-- Aggregation bucket of `buildAllowedAmounts` (`AggregationBucket`). -/
structure AggregationBucket where
  billingClass : BillingClass
  serviceCode : Option String
  providerId : String
  providerNpi : Int
  sumAllowed : ℚ
  sumBilled : ℚ
  count : Nat
deriving DecidableEq

/-- Provider sub-entry of an MRF payment. -/
structure MrfProvider where
  billed_charge : ℚ
  npi : List Int
deriving DecidableEq

/-- Payment entry of an MRF allowed amount. -/
structure MrfPayment where
  allowed_amount : ℚ
  providers : List MrfProvider
deriving DecidableEq

/-- Tax identification entry of an MRF allowed amount. -/
structure MrfTin where
  tinType : String
  value : String
deriving DecidableEq

/-- Allowed-amount entry of an out-of-network section (`MrfAllowedAmount`);
`service_code` is `none` when the optional field is absent. -/
structure MrfAllowedAmount where
  tin : MrfTin
  billing_class : String
  service_code : Option (List String)
  payments : List MrfPayment
deriving DecidableEq

/-- Out-of-network entry of an MRF document (`MrfOutOfNetwork`). -/
structure MrfOutOfNetwork where
  name : String
  billing_code_type : String
  billing_code_type_version : String
  billing_code : String
  description : String
  allowed_amounts : List MrfAllowedAmount
deriving DecidableEq

/-- Top-level MRF document (`MrfFile`). -/
structure MrfFile where
  reporting_entity_name : String
  reporting_entity_type : String
  last_updated_on : String
  version : String
  out_of_network : List MrfOutOfNetwork
deriving DecidableEq

/-- Generated document together with its file metadata (`GeneratedMrf`). -/
structure GeneratedMrf where
  customerId : String
  customerKey : String
  customerName : String
  fileName : String
  claimCount : Nat
  data : MrfFile
deriving DecidableEq

/-- Source `groupClaimsByProcedure`: claims without a procedure code are
skipped; the rest are appended to their procedure bucket in order. -/
def groupClaimsByProcedure (claims : List ClaimInput) : List (String × List ClaimInput) :=
  claims.foldl (fun map claim =>
    if claim.procedureCode = "" then map
    else upsert map claim.procedureCode (fun o => (o.getD []) ++ [claim])) []

/-- Bucket-building loop of `buildAllowedAmounts`: skip claims whose
provider id is empty or fails `Number.parseInt`, bucket the rest by
provider id, billing class and service code. -/
def buildAllowedBuckets (claims : List ClaimInput) : List (String × AggregationBucket) :=
  claims.foldl (fun buckets claim =>
    if claim.providerId = "" then buckets
    else
      match jsParseInt claim.providerId with
      | none => buckets
      | some providerNpi =>
        let billingClass := getBillingClass claim.claimType
        let serviceCode :=
          if billingClass = BillingClass.professional then
            some (getServiceCode claim.placeOfService)
          else none
        let key := joinSep "|" [claim.providerId, billingClass.str, serviceCode.getD "none"]
        upsert buckets key (fun o =>
          let bucket := o.getD
            { billingClass := billingClass
              serviceCode := serviceCode
              providerId := claim.providerId
              providerNpi := providerNpi
              sumAllowed := 0
              sumBilled := 0
              count := 0 }
          { bucket with
            sumAllowed := bucket.sumAllowed + claim.allowed.orZero
            sumBilled := bucket.sumBilled + claim.billed.orZero
            count := bucket.count + 1 })) []

/-- Entry built from one finished bucket in `buildAllowedAmounts`. -/
def bucketEntry (bucket : AggregationBucket) : MrfAllowedAmount :=
  { tin := { tinType := "npi", value := bucket.providerId }
    billing_class := bucket.billingClass.str
    service_code :=
      if bucket.billingClass = BillingClass.professional then
        match bucket.serviceCode with
        | some sc => if sc = "" then none else some [sc]
        | none => none
      else none
    payments :=
      [{ allowed_amount := roundCurrency (bucket.sumAllowed / bucket.count)
         providers :=
           [{ billed_charge := roundCurrency (bucket.sumBilled / bucket.count)
              npi := [bucket.providerNpi] }] }] }

/-- Source `buildAllowedAmounts`. -/
def buildAllowedAmounts (claims : List ClaimInput) : List MrfAllowedAmount :=
  (buildAllowedBuckets claims).map (fun kv => bucketEntry kv.2)

/-- Source `buildOutOfNetwork`: one entry per procedure code whose bucket
list is non-empty. -/
def buildOutOfNetwork (claims : List ClaimInput) : List MrfOutOfNetwork :=
  (groupClaimsByProcedure claims).filterMap (fun kv =>
    let allowedAmounts := buildAllowedAmounts kv.2
    if allowedAmounts.length = 0 then none
    else some
      { name := "Procedure " ++ kv.1
        billing_code_type := getBillingCodeType kv.1
        billing_code_type_version := BILLING_CODE_TYPE_VERSION
        billing_code := kv.1
        description := "Allowed amounts for procedure " ++ kv.1 ++ "."
        allowed_amounts := allowedAmounts })

/-- Customer identity of a backend claim (`groupId?.trim() ||
groupName?.trim() || "unknown"`). -/
def customerIdOf (claim : ClaimInput) : String :=
  if jsTrim claim.groupId ≠ "" then jsTrim claim.groupId
  else if jsTrim claim.groupName ≠ "" then jsTrim claim.groupName
  else "unknown"

/-- Source `groupClaimsByCustomer`. -/
def groupClaimsByCustomer (claims : List ClaimInput) : List (String × List ClaimInput) :=
  foldUp customerIdOf (fun _ => []) (fun l c => l ++ [c]) claims

/-- Source `generateMrfFiles`.  The two `new Date()` calls in the source
(document date and file-name date) happen within one request and are
modelled by the single `today` parameter. -/
def generateMrfFiles (today : String) (claims : List ClaimInput) : List GeneratedMrf :=
  (groupClaimsByCustomer claims).filterMap (fun kv =>
    let customerId := kv.1
    let customerClaims := kv.2
    let customerName :=
      match customerClaims.head? with
      | some c => if c.groupName ≠ "" then c.groupName else customerId
      | none => customerId
    let outOfNetwork := buildOutOfNetwork customerClaims
    if outOfNetwork.length = 0 then none
    else some
      { customerId := customerId
        customerKey := slugify customerId
        customerName := customerName
        fileName := slugify customerName ++ "-" ++ slugify customerId ++ "-" ++ today ++ ".json"
        claimCount := customerClaims.length
        data :=
          { reporting_entity_name := customerName
            reporting_entity_type := "group"
            last_updated_on := today
            version := "1.0.0"
            out_of_network := outOfNetwork } })

/-- Persisted file record (`MrfFileRecord`). -/
structure MrfFileRecord where
  customerId : String
  customerKey : String
  customerName : String
  fileName : String
  createdAt : String
  claimCount : Nat
  size : Nat
deriving DecidableEq

/-- Customer record of the storage index (`MrfCustomerRecord`). -/
structure MrfCustomerRecord where
  id : String
  key : String
  name : String
  files : List MrfFileRecord
deriving DecidableEq

/-- Model of Node's `path.basename`: drop trailing separators, then keep
everything after the last remaining separator. -/
def jsBasename (fileName : String) : String :=
  String.mk (((fileName.data.reverse.dropWhile (· = '/')).takeWhile (· ≠ '/')).reverse)

/-- Path normalization performed by `path.join`: paths are component
lists; empty and `.` components vanish and `..` pops the previous
component. -/
def normSegs (segs : List String) : List String :=
  segs.foldl (fun acc seg =>
    if seg = "" ∨ seg = "." then acc
    else if seg = ".." then acc.dropLast
    else acc ++ [seg]) []

/-- Path read by `MrfStorage.readFile` once the customer record is found:
`path.join(baseDir, customer.key, path.basename(fileName))`, with the base
directory given as its component list. -/
def resolveRead (base : List String) (key fileName : String) : List String :=
  normSegs (base ++ [key, jsBasename fileName])

/-- Model of `MrfStorage.readFile`.  The filesystem is a partial map from
normalized component paths to file contents; `fs p = none` covers both a
missing file and a failing read (such as reading a directory), either of
which makes the `catch` branch return null. -/
def readFileM (fs : List String → Option String) (base : List String)
    (index : List (String × MrfCustomerRecord)) (customerId fileName : String) :
    Option String :=
  match List.lookup customerId index with
  | none => none
  | some customer => fs (resolveRead base customer.key fileName)

/-- HTTP result of the `POST /api/mrf` handler: the documents persisted on
disk when the response is produced, and the response status. -/
structure PostResult where
  persisted : List GeneratedMrf
  status : Nat
deriving DecidableEq

/-- Sequential save loop of the handler: the `failAt` oracle says whether
the i-th `storage.save` call fails (each save is taken as atomic, the most
favorable reading).  Returns the documents persisted and whether every
save succeeded; documents saved before a failing call stay persisted. -/
def runSaves (failAt : Nat → Bool) : List GeneratedMrf → Nat → List GeneratedMrf × Bool
  | [], _ => ([], true)
  | d :: ds, i =>
    if failAt i then ([], false)
    else
      let rest := runSaves failAt ds (i + 1)
      (d :: rest.1, rest.2)

/-- Model of the `POST /api/mrf` handler: reject empty input (400), reject
an empty generated set (400), then save each generated document in turn;
a save failure surfaces as a 500 response through the `catch` block. -/
def postMrf (today : String) (claims : List ClaimInput) (failAt : Nat → Bool) : PostResult :=
  if claims.length = 0 then { persisted := [], status := 400 }
  else
    let generated := generateMrfFiles today claims
    if generated.length = 0 then { persisted := [], status := 400 }
    else
      let outcome := runSaves failAt generated 0
      { persisted := outcome.1, status := if outcome.2 then 200 else 500 }

end Backend

section MapLemmas

variable {α β : Type _}

theorem contains_iff_mem (l : List String) (a : String) : l.contains a = true ↔ a ∈ l := by
  induction l with
  | nil => simp
  | cons b bs ih => simp [List.contains, List.elem_cons]

theorem mem_setAdd (l : List String) (a b : String) :
    a ∈ setAdd l b ↔ a ∈ l ∨ a = b := by
  unfold setAdd
  by_cases hb : b ∈ l
  · simp only [if_pos hb]
    constructor
    · exact Or.inl
    · rintro (h | rfl)
      · exact h
      · exact hb
  · simp [if_neg hb]

theorem lookup_cons_ite (k k₀ : String) (v : α) (rest : List (String × α)) :
    List.lookup k ((k₀, v) :: rest) = if k = k₀ then some v else List.lookup k rest := by
  by_cases h : k = k₀
  · subst h; simp
  · simp only [List.lookup_cons, if_neg h]
    have hbe : (k == k₀) = false := by
      cases hb : (k == k₀)
      · rfl
      · exact absurd (beq_iff_eq.mp hb) h
    rw [hbe]

theorem lookup_upsert (m : List (String × α)) (k : String) (f : Option α → α)
    (k' : String) :
    List.lookup k' (upsert m k f) =
      if k' = k then some (f (List.lookup k m)) else List.lookup k' m := by
  induction m with
  | nil =>
    show List.lookup k' [(k, f none)] = _
    rw [lookup_cons_ite]
    rfl
  | cons kv rest ih =>
    obtain ⟨k₀, v⟩ := kv
    by_cases h0 : k₀ = k
    · subst h0
      rw [show upsert ((k₀, v) :: rest) k₀ f = (k₀, f (some v)) :: rest by
        simp [upsert]]
      rw [lookup_cons_ite]
      by_cases h : k' = k₀
      · rw [if_pos h, if_pos h, lookup_cons_ite, if_pos rfl]
      · rw [if_neg h, if_neg h, lookup_cons_ite, if_neg h]
    · rw [show upsert ((k₀, v) :: rest) k f = (k₀, v) :: upsert rest k f by
        simp [upsert, h0]]
      rw [lookup_cons_ite]
      by_cases h : k' = k₀
      · subst h
        rw [if_pos rfl, if_neg (fun hh : k' = k => h0 (hh ▸ rfl)), lookup_cons_ite, if_pos rfl]
      · rw [if_neg h, ih]
        by_cases hk : k' = k
        · rw [if_pos hk, if_pos hk, lookup_cons_ite,
            if_neg (fun hh : k = k₀ => h (hk.trans hh))]
        · rw [if_neg hk, if_neg hk, lookup_cons_ite, if_neg h]

theorem keys_upsert (m : List (String × α)) (k : String) (f : Option α → α) :
    (upsert m k f).map Prod.fst =
      if k ∈ m.map Prod.fst then m.map Prod.fst else m.map Prod.fst ++ [k] := by
  induction m with
  | nil => simp [upsert]
  | cons kv rest ih =>
    obtain ⟨k₀, v⟩ := kv
    by_cases h0 : k₀ = k
    · subst h0
      simp [upsert]
    · simp only [upsert, if_neg h0, List.map_cons, List.mem_cons]
      rw [ih]
      by_cases hk : k ∈ rest.map Prod.fst
      · rw [if_pos hk, if_pos (Or.inr hk)]
      · rw [if_neg hk,
          if_neg (fun hh => hh.elim (fun he : k = k₀ => h0 he.symm) hk), List.cons_append]

theorem nodup_keys_upsert (m : List (String × α)) (k : String) (f : Option α → α)
    (h : (m.map Prod.fst).Nodup) : ((upsert m k f).map Prod.fst).Nodup := by
  rw [keys_upsert]
  by_cases hk : k ∈ m.map Prod.fst
  · simpa [hk]
  · simp only [if_neg hk]
    rw [List.nodup_append]
    refine ⟨h, List.nodup_singleton k, ?_⟩
    intro a ha hb
    simp only [List.mem_singleton] at hb
    subst hb
    exact hk ha

theorem lookup_of_mem_nodup (m : List (String × α)) (k : String) (v : α)
    (hn : (m.map Prod.fst).Nodup) (h : (k, v) ∈ m) : List.lookup k m = some v := by
  induction m with
  | nil => cases h
  | cons kv rest ih =>
    obtain ⟨k₀, v₀⟩ := kv
    simp only [List.map_cons, List.nodup_cons] at hn
    rcases List.mem_cons.mp h with heq | hmem
    · cases heq
      simp [List.lookup]
    · have hne : k ≠ k₀ := by
        rintro rfl
        exact hn.1 (List.mem_map.mpr ⟨(k, v), hmem, rfl⟩)
      simp only [List.lookup_cons, beq_iff_eq]
      simp only [if_neg hne] at *
      cases hbe : (k == k₀)
      · exact ih hn.2 hmem
      · exact absurd (beq_iff_eq.mp hbe) hne

theorem mem_of_lookup (m : List (String × α)) (k : String) (v : α)
    (h : List.lookup k m = some v) : (k, v) ∈ m := by
  induction m with
  | nil => simp [List.lookup] at h
  | cons kv rest ih =>
    obtain ⟨k₀, v₀⟩ := kv
    simp only [List.lookup_cons] at h
    cases hbe : (k == k₀) <;> rw [hbe] at h
    · exact List.mem_cons_of_mem _ (ih h)
    · cases h
      cases beq_iff_eq.mp hbe
      exact List.mem_cons_self _ _

theorem lookup_map_entry (m : List (String × α)) (F : String × α → β) (k : String) :
    List.lookup k (m.map (fun kv => (kv.1, F kv))) =
      (List.lookup k m).map (fun v => F (k, v)) := by
  induction m with
  | nil => simp [List.lookup]
  | cons kv rest ih =>
    obtain ⟨k₀, v₀⟩ := kv
    simp only [List.map_cons, lookup_cons_ite]
    by_cases h : k = k₀
    · subst h
      simp
    · simp [h, ih]

theorem chainUp_some (init : α → β) (g : β → α → β) (xs : List α) (b : β) :
    chainUp init g (some b) xs = some (xs.foldl g b) := by
  induction xs generalizing b with
  | nil => rfl
  | cons x rest ih => simp [chainUp, List.foldl_cons] at ih ⊢; exact ih (g b x)

theorem lookup_foldl_upsert (key : α → String) (init : α → β) (g : β → α → β)
    (xs : List α) :
    ∀ (mp : List (String × β)) (k : String),
      List.lookup k
          (xs.foldl (fun mp x => upsert mp (key x) (fun o => g (o.getD (init x)) x)) mp) =
        chainUp init g (List.lookup k mp) (xs.filter (fun x => key x = k)) := by
  induction xs with
  | nil => intro mp k; rfl
  | cons x rest ih =>
    intro mp k
    simp only [List.foldl_cons, List.filter_cons]
    rw [ih]
    by_cases hx : key x = k
    · subst hx
      rw [decide_eq_true (rfl : key x = key x), if_pos rfl]
      rw [lookup_upsert, if_pos rfl]
      rfl
    · rw [decide_eq_false hx, if_neg (by simp)]
      rw [lookup_upsert, if_neg (fun hh => hx hh.symm)]

theorem lookup_foldUp (key : α → String) (init : α → β) (g : β → α → β)
    (xs : List α) (k : String) :
    List.lookup k (foldUp key init g xs) =
      match xs.filter (fun x => key x = k) with
      | [] => none
      | x :: rest => some (rest.foldl g (g (init x) x)) := by
  unfold foldUp
  rw [lookup_foldl_upsert]
  cases h : xs.filter (fun x => key x = k) with
  | nil => rfl
  | cons x rest => exact chainUp_some init g rest (g (init x) x)

theorem nodup_keys_foldUp (key : α → String) (init : α → β) (g : β → α → β)
    (xs : List α) : ((foldUp key init g xs).map Prod.fst).Nodup := by
  unfold foldUp
  suffices h : ∀ (mp : List (String × β)), (mp.map Prod.fst).Nodup →
      ((xs.foldl (fun mp x => upsert mp (key x) (fun o => g (o.getD (init x)) x)) mp).map
        Prod.fst).Nodup by
    exact h [] List.nodup_nil
  induction xs with
  | nil => intro mp hmp; exact hmp
  | cons x rest ih =>
    intro mp hmp
    exact ih _ (nodup_keys_upsert _ _ _ hmp)

theorem foldl_skip_filter (f : β → α → β) (p : α → Bool)
    (h : ∀ b a, p a = false → f b a = b) :
    ∀ (l : List α) (b : β), l.foldl f b = (l.filter p).foldl f b := by
  intro l
  induction l with
  | nil => intro b; rfl
  | cons x rest ih =>
    intro b
    cases hp : p x with
    | false =>
      rw [List.foldl_cons, List.filter_cons, hp, if_neg (by simp), h b x hp]
      exact ih b
    | true =>
      rw [List.foldl_cons, List.filter_cons, hp, if_pos rfl, List.foldl_cons]
      exact ih (f b x)

theorem foldl_append_singleton (l : List α) :
    ∀ (acc : List α), l.foldl (fun l c => l ++ [c]) acc = acc ++ l := by
  induction l with
  | nil => intro acc; simp
  | cons x rest ih => intro acc; simp [List.foldl_cons, ih]

theorem lookup_getD_false (l : List (String × Bool)) (hf : ∀ p ∈ l, p.2 = false)
    (k : String) : (List.lookup k l).getD false = false := by
  induction l with
  | nil => rfl
  | cons kv rest ih =>
    obtain ⟨k₀, b⟩ := kv
    simp only [List.lookup_cons]
    cases hbe : (k == k₀)
    · exact ih (fun p hp => hf p (List.mem_cons_of_mem _ hp))
    · have := hf (k₀, b) (List.mem_cons_self _ _)
      simpa using this

theorem headD_mem (l : List α) (d : α) (h : l ≠ []) : l.headD d ∈ l := by
  cases l with
  | nil => exact absurd rfl h
  | cons a as => exact List.mem_cons_self a as

end MapLemmas

namespace Frontend

/-- Claims of one group key, in input order. -/
def keyClaims (claims : List ClaimRow) (gm : GroupingMethod) (k : String) : List ClaimRow :=
  claims.filter (fun c => decide (getGroupKey c gm = k))

theorem claimMap_lookup (claims : List ClaimRow) (gm : GroupingMethod) (k : String) :
    List.lookup k (buildGroupClaimMap claims gm) =
      match keyClaims claims gm k with
      | [] => none
      | l => some l := by
  unfold buildGroupClaimMap keyClaims
  rw [lookup_foldUp]
  cases h : claims.filter (fun c => decide (getGroupKey c gm = k)) with
  | nil => rfl
  | cons c rest =>
    simp [foldl_append_singleton]

theorem acc_lookup (claims : List ClaimRow) (gm : GroupingMethod) (k : String) :
    List.lookup k (buildGroupAccumulators claims gm) =
      match keyClaims claims gm k with
      | [] => none
      | c :: rest => some (rest.foldl addClaim (addClaim (freshAcc (getGroupKey c gm) c) c)) := by
  unfold buildGroupAccumulators keyClaims
  rw [lookup_foldUp]
  cases claims.filter (fun c => decide (getGroupKey c gm = k)) with
  | nil => rfl
  | cons c rest => rfl

theorem addClaim_claimCount (a : GroupAccumulator) (c : ClaimRow) :
    (addClaim a c).claimCount = a.claimCount + 1 := rfl

theorem addClaim_id (a : GroupAccumulator) (c : ClaimRow) : (addClaim a c).id = a.id := rfl

theorem addClaim_customerId (a : GroupAccumulator) (c : ClaimRow) :
    (addClaim a c).customerId = a.customerId := rfl

theorem addClaim_customerName (a : GroupAccumulator) (c : ClaimRow) :
    (addClaim a c).customerName = a.customerName := rfl

theorem addClaim_valid (a : GroupAccumulator) (c : ClaimRow) :
    (addClaim a c).validClaimCount = a.validClaimCount + (if c.isValid then 1 else 0) := rfl

theorem addClaim_elig (a : GroupAccumulator) (c : ClaimRow) :
    (addClaim a c).eligibleClaimCount =
      a.eligibleClaimCount + (if isEligibleClaim c then 1 else 0) := rfl

theorem addClaim_invalid (a : GroupAccumulator) (c : ClaimRow) :
    (addClaim a c).invalidClaimCount = a.invalidClaimCount + (if c.isValid then 0 else 1) := rfl

theorem addClaim_denied (a : GroupAccumulator) (c : ClaimRow) :
    (addClaim a c).deniedClaimCount =
      a.deniedClaimCount + (if isDeniedStatus c.claimStatus then 1 else 0) := rfl

theorem addClaim_sumAllowed (a : GroupAccumulator) (c : ClaimRow) :
    (addClaim a c).sumAllowed =
      a.sumAllowed + (if isEligibleClaim c then c.allowed.orZero else 0) := rfl

theorem addClaim_sumBilled (a : GroupAccumulator) (c : ClaimRow) :
    (addClaim a c).sumBilled =
      a.sumBilled + (if isEligibleClaim c then c.billed.orZero else 0) := rfl

theorem addClaim_sumPaid (a : GroupAccumulator) (c : ClaimRow) :
    (addClaim a c).sumPaid =
      a.sumPaid + (if isEligibleClaim c then c.paid.orZero else 0) := rfl

theorem foldl_addClaim_spec (cs : List ClaimRow) :
    ∀ (a : GroupAccumulator),
      (cs.foldl addClaim a).id = a.id ∧
      (cs.foldl addClaim a).customerId = a.customerId ∧
      (cs.foldl addClaim a).customerName = a.customerName ∧
      (cs.foldl addClaim a).claimCount = a.claimCount + cs.length ∧
      (cs.foldl addClaim a).validClaimCount =
        a.validClaimCount + cs.countP (fun c => c.isValid) ∧
      (cs.foldl addClaim a).eligibleClaimCount =
        a.eligibleClaimCount + cs.countP isEligibleClaim ∧
      (cs.foldl addClaim a).invalidClaimCount =
        a.invalidClaimCount + cs.countP (fun c => !c.isValid) ∧
      (cs.foldl addClaim a).deniedClaimCount =
        a.deniedClaimCount + cs.countP (fun c => isDeniedStatus c.claimStatus) ∧
      (cs.foldl addClaim a).sumAllowed =
        a.sumAllowed + ((cs.filter isEligibleClaim).map (fun c => c.allowed.orZero)).sum ∧
      (cs.foldl addClaim a).sumBilled =
        a.sumBilled + ((cs.filter isEligibleClaim).map (fun c => c.billed.orZero)).sum ∧
      (cs.foldl addClaim a).sumPaid =
        a.sumPaid + ((cs.filter isEligibleClaim).map (fun c => c.paid.orZero)).sum := by
  induction cs with
  | nil => intro a; simp
  | cons x rest ih =>
    intro a
    obtain ⟨h1, h2, h3, h4, h5, h6, h7, h8, h9, h10, h11⟩ := ih (addClaim a x)
    rw [List.foldl_cons]
    refine ⟨h1.trans (addClaim_id a x), h2.trans (addClaim_customerId a x),
      h3.trans (addClaim_customerName a x), ?_, ?_, ?_, ?_, ?_, ?_, ?_, ?_⟩
    · rw [h4, addClaim_claimCount]
      simp [Nat.add_assoc, Nat.add_comm 1]
    · rw [h5, addClaim_valid, List.countP_cons]
      omega
    · rw [h6, addClaim_elig, List.countP_cons]
      omega
    · rw [h7, addClaim_invalid, List.countP_cons]
      by_cases hv : x.isValid <;> simp [hv] <;> omega
    · rw [h8, addClaim_denied, List.countP_cons]
      omega
    · rw [h9, addClaim_sumAllowed, List.filter_cons]
      by_cases he : isEligibleClaim x <;> simp [he] <;> ring
    · rw [h10, addClaim_sumBilled, List.filter_cons]
      by_cases he : isEligibleClaim x <;> simp [he] <;> ring
    · rw [h11, addClaim_sumPaid, List.filter_cons]
      by_cases he : isEligibleClaim x <;> simp [he] <;> ring

theorem acc_spec (claims : List ClaimRow) (gm : GroupingMethod) (k : String)
    (acc : GroupAccumulator)
    (h : List.lookup k (buildGroupAccumulators claims gm) = some acc) :
    keyClaims claims gm k ≠ [] ∧
    acc.id = k ∧
    acc.claimCount = (keyClaims claims gm k).length ∧
    acc.validClaimCount = (keyClaims claims gm k).countP (fun c => c.isValid) ∧
    acc.eligibleClaimCount = (keyClaims claims gm k).countP isEligibleClaim ∧
    acc.invalidClaimCount = (keyClaims claims gm k).countP (fun c => !c.isValid) ∧
    acc.deniedClaimCount =
      (keyClaims claims gm k).countP (fun c => isDeniedStatus c.claimStatus) ∧
    acc.sumAllowed =
      (((keyClaims claims gm k).filter isEligibleClaim).map (fun c => c.allowed.orZero)).sum ∧
    acc.sumBilled =
      (((keyClaims claims gm k).filter isEligibleClaim).map (fun c => c.billed.orZero)).sum ∧
    acc.sumPaid =
      (((keyClaims claims gm k).filter isEligibleClaim).map (fun c => c.paid.orZero)).sum := by
  rw [acc_lookup] at h
  cases hf : keyClaims claims gm k with
  | nil => rw [hf] at h; cases h
  | cons c rest =>
    rw [hf] at h
    have hc : c ∈ keyClaims claims gm k := by rw [hf]; exact List.mem_cons_self c rest
    have hkey : getGroupKey c gm = k := by
      have := (List.mem_filter.mp hc).2
      exact of_decide_eq_true this
    cases h
    obtain ⟨h1, h2, h3, h4, h5, h6, h7, h8, h9, h10, h11⟩ :=
      foldl_addClaim_spec rest (addClaim (freshAcc (getGroupKey c gm) c) c)
    refine ⟨by simp, ?_, ?_, ?_, ?_, ?_, ?_, ?_, ?_, ?_⟩
    · rw [h1, addClaim_id]
      simpa [freshAcc] using hkey
    · rw [h4, addClaim_claimCount]
      simp [freshAcc, List.length_cons]
      omega
    · rw [h5, addClaim_valid, List.countP_cons]
      simp [freshAcc]
      omega
    · rw [h6, addClaim_elig, List.countP_cons]
      simp [freshAcc]
      omega
    · rw [h7, addClaim_invalid, List.countP_cons]
      by_cases hv : c.isValid <;> simp [freshAcc, hv] <;> omega
    · rw [h8, addClaim_denied, List.countP_cons]
      simp [freshAcc]
      omega
    · rw [h9, addClaim_sumAllowed, List.filter_cons]
      by_cases he : isEligibleClaim c <;> simp [freshAcc, he] <;> ring
    · rw [h10, addClaim_sumBilled, List.filter_cons]
      by_cases he : isEligibleClaim c <;> simp [freshAcc, he] <;> ring
    · rw [h11, addClaim_sumPaid, List.filter_cons]
      by_cases he : isEligibleClaim c <;> simp [freshAcc, he] <;> ring

theorem sum_claimCount_upsert (m : List (String × GroupAccumulator)) (k : String)
    (f : Option GroupAccumulator → GroupAccumulator)
    (hf : ∀ o : Option GroupAccumulator,
      (f o).claimCount = (match o with | some v => v.claimCount | none => 0) + 1) :
    ((upsert m k f).map (fun kv => kv.2.claimCount)).sum =
      ((m.map (fun kv => kv.2.claimCount)).sum) + 1 := by
  induction m with
  | nil =>
    simp [upsert, hf none]
  | cons kv rest ih =>
    obtain ⟨k₀, v⟩ := kv
    by_cases h0 : k₀ = k
    · subst h0
      rw [show upsert ((k₀, v) :: rest) k₀ f = (k₀, f (some v)) :: rest by simp [upsert]]
      simp [hf (some v)]
      omega
    · rw [show upsert ((k₀, v) :: rest) k f = (k₀, v) :: upsert rest k f by simp [upsert, h0]]
      simp only [List.map_cons, List.sum_cons, ih]
      omega

theorem sum_claimCount_build (claims : List ClaimRow) (gm : GroupingMethod) :
    ((buildGroupAccumulators claims gm).map (fun kv => kv.2.claimCount)).sum =
      claims.length := by
  unfold buildGroupAccumulators foldUp
  suffices h : ∀ (mp : List (String × GroupAccumulator)),
      ((claims.foldl (fun mp c => upsert mp (getGroupKey c gm)
          (fun o => addClaim (o.getD (freshAcc (getGroupKey c gm) c)) c)) mp).map
        (fun kv => kv.2.claimCount)).sum =
        (mp.map (fun kv => kv.2.claimCount)).sum + claims.length by
    simpa using h []
  induction claims with
  | nil => intro mp; simp
  | cons c rest ih =>
    intro mp
    rw [List.foldl_cons, ih, sum_claimCount_upsert]
    · simp [List.length_cons]
      omega
    · intro o
      cases o with
      | none => simp [addClaim_claimCount, freshAcc]
      | some v => simp [addClaim_claimCount]

theorem mem_groupSummaries_iff (claims : List ClaimRow) (gm : GroupingMethod)
    (approvals : List (String × Bool)) (g : PricingGroup) :
    g ∈ groupSummaries claims gm approvals ↔
      ∃ kv ∈ buildGroupAccumulators claims gm, g = toSummary approvals kv.2 := by
  unfold groupSummaries
  rw [(List.perm_insertionSort _ _).mem_iff, List.mem_map]
  constructor
  · rintro ⟨kv, hkv, rfl⟩
    exact ⟨kv, hkv, rfl⟩
  · rintro ⟨kv, hkv, rfl⟩
    exact ⟨kv, hkv, rfl⟩

/-- C1: for every claim set and every grouping method, every pricing group
produced by `groupSummaries` satisfies `isEligible = true` if and only if
`eligibleClaimCount > 0` and `invalidClaimCount = 0` and
`deniedClaimCount = 0`, in both directions. -/
theorem eligibility_iff_counts (claims : List ClaimRow) (gm : GroupingMethod)
    (approvals : List (String × Bool)) (g : PricingGroup)
    (hg : g ∈ groupSummaries claims gm approvals) :
    g.isEligible = true ↔
      0 < g.eligibleClaimCount ∧ g.invalidClaimCount = 0 ∧ g.deniedClaimCount = 0 := by
  obtain ⟨kv, _, rfl⟩ := (mem_groupSummaries_iff claims gm approvals g).mp hg
  show (toSummary approvals kv.2).isEligible = true ↔ _
  simp only [toSummary, Bool.and_eq_true, decide_eq_true_eq]
  exact and_assoc

/-- Sample claim used by the concrete witnesses: valid, not denied, allowed
amount 80. -/
def claimW1 : ClaimRow :=
  { id := "CLM-1", claimStatus := "Paid", groupName := "Alpha Group", groupId := "G1"
    planName := "Plan A", planId := "PLA001", placeOfService := "Office"
    claimType := "Professional", procedureCode := "99213", providerId := "1111111111"
    providerName := "Provider One", billed := JsNum.num 100, allowed := JsNum.num 80
    paid := JsNum.num 60, isValid := true }

/-- Second sample claim: same pricing group as `claimW1`, allowed amount
90. -/
def claimW2 : ClaimRow :=
  { claimW1 with id := "CLM-2", allowed := JsNum.num 90, billed := JsNum.num 120 }

/-- Summaries of the two-claim sample set under the MRF methodology with no
approvals. -/
def summariesW : List PricingGroup :=
  groupSummaries [claimW1, claimW2] GroupingMethod.mrf []

/-- First (and only) group of the sample summaries. -/
def groupW : PricingGroup := summariesW.headD default

theorem summariesW_ne_nil : summariesW ≠ [] := by
  intro h
  have hl : summariesW.length = 1 := by decide
  rw [h] at hl
  cases hl

theorem groupW_mem : groupW ∈ summariesW :=
  headD_mem summariesW default summariesW_ne_nil

/-- Witness for C1 at the two-claim sample set. -/
theorem eligibility_iff_counts_witness :
    groupW ∈ summariesW ∧
      (groupW.isEligible = true ↔
        0 < groupW.eligibleClaimCount ∧ groupW.invalidClaimCount = 0 ∧
          groupW.deniedClaimCount = 0) :=
  ⟨groupW_mem,
    eligibility_iff_counts [claimW1, claimW2] GroupingMethod.mrf [] groupW groupW_mem⟩

/-- C3: for every input claim list and every grouping method, the sum of
`claimCount` over all pricing groups produced by `groupSummaries` equals
the length of the input claim list. -/
theorem partition_completeness (claims : List ClaimRow) (gm : GroupingMethod)
    (approvals : List (String × Bool)) :
    ((groupSummaries claims gm approvals).map (fun g => g.claimCount)).sum =
      claims.length := by
  unfold groupSummaries
  have hperm := (List.perm_insertionSort
      (fun l r => cmpGroups (keyFields gm) l r ≠ Ordering.gt)
      ((buildGroupAccumulators claims gm).map (fun kv => toSummary approvals kv.2))).map
        (fun g => g.claimCount)
  rw [hperm.sum_eq, List.map_map]
  exact sum_claimCount_build claims gm

/-- C5: for any pricing group whose eligible claims carry the allowed
amounts 80 and 90 (in either order), `averageAllowed` is exactly 85; for
any group with `eligibleClaimCount = 0`, the three averages are the NaN
sentinel and never 0. -/
theorem average_round_trip (claims : List ClaimRow) (gm : GroupingMethod)
    (approvals : List (String × Bool)) (g : PricingGroup)
    (hg : g ∈ groupSummaries claims gm approvals) :
    (((claims.filter (fun c => isEligibleClaim c && decide (getGroupKey c gm = g.id))).map
        (fun c => c.allowed)).Perm [JsNum.num 80, JsNum.num 90] →
      g.averageAllowed = JsNum.num 85) ∧
    (g.eligibleClaimCount = 0 →
      g.averageAllowed = JsNum.nan ∧ g.averageBilled = JsNum.nan ∧
      g.averagePaid = JsNum.nan ∧ g.averageAllowed ≠ JsNum.num 0 ∧
      g.averageBilled ≠ JsNum.num 0 ∧ g.averagePaid ≠ JsNum.num 0) := by
  obtain ⟨kv, hkv, rfl⟩ := (mem_groupSummaries_iff claims gm approvals g).mp hg
  have hnd : ((buildGroupAccumulators claims gm).map Prod.fst).Nodup := by
    unfold buildGroupAccumulators
    exact nodup_keys_foldUp _ _ _ claims
  have hlk : List.lookup kv.1 (buildGroupAccumulators claims gm) = some kv.2 :=
    lookup_of_mem_nodup _ _ _ hnd (Prod.mk.eta ▸ hkv)
  obtain ⟨-, hid, -, -, helig, -, -, hsumA, -, -⟩ :=
    acc_spec claims gm kv.1 kv.2 hlk
  constructor
  · intro hp
    have hgid : (toSummary approvals kv.2).id = kv.1 := hid
    simp only [hgid] at hp
    have hE := List.filter_filter (p := isEligibleClaim)
      (fun c => decide (getGroupKey c gm = kv.1)) claims
    have hp' : (((keyClaims claims gm kv.1).filter isEligibleClaim).map
        (fun c => c.allowed)).Perm [JsNum.num 80, JsNum.num 90] := by
      unfold keyClaims
      rw [hE]
      exact hp
    have hlen : ((keyClaims claims gm kv.1).filter isEligibleClaim).length = 2 := by
      have := hp'.length_eq
      simpa using this
    have hcnt : kv.2.eligibleClaimCount = 2 := by
      rw [helig, List.countP_eq_length_filter]
      exact hlen
    have hsum :
        (((keyClaims claims gm kv.1).filter isEligibleClaim).map
          (fun c => c.allowed.orZero)).sum = 170 := by
      have h2 := (hp'.map JsNum.orZero).sum_eq
      rw [List.map_map] at h2
      have h3 : ((List.map JsNum.orZero [JsNum.num 80, JsNum.num 90]).sum : ℚ) = 170 := by
        simp [JsNum.orZero]
        norm_num
      rw [h3] at h2
      exact h2
    show (toSummary approvals kv.2).averageAllowed = JsNum.num 85
    simp only [toSummary]
    rw [if_pos (by omega : kv.2.eligibleClaimCount > 0)]
    have hs : kv.2.sumAllowed = 170 := hsumA.trans hsum
    rw [hs, hcnt]
    have hfl : ⌊(100 : ℚ) * (170 / ((2 : ℕ) : ℚ)) + 1 / 2⌋ = (8500 : ℤ) := by
      apply Int.floor_eq_iff.mpr
      constructor <;> norm_num
    unfold roundCurrency
    rw [hfl]
    norm_num
  · intro h0
    have h0' : kv.2.eligibleClaimCount = 0 := h0
    simp [toSummary, h0']

/-- Denied sample claim, alone in its pricing group, so that group has no
eligible claim. -/
def claimW3 : ClaimRow :=
  { claimW1 with id := "CLM-3", claimStatus := "Denied", procedureCode := "99499" }

/-- Summaries of the single denied claim. -/
def summariesW3 : List PricingGroup :=
  groupSummaries [claimW3] GroupingMethod.mrf []

/-- The single group of `summariesW3`. -/
def groupW3 : PricingGroup := summariesW3.headD default

theorem summariesW3_ne_nil : summariesW3 ≠ [] := by
  intro h
  have hl : summariesW3.length = 1 := by decide
  rw [h] at hl
  cases hl

theorem groupW3_mem : groupW3 ∈ summariesW3 :=
  headD_mem summariesW3 default summariesW3_ne_nil

/-- Witness for C5: the 80/90 group averages to exactly 85, and the
zero-eligible group reports NaN. -/
theorem average_round_trip_witness :
    ((([claimW1, claimW2].filter (fun c =>
        isEligibleClaim c && decide (getGroupKey c GroupingMethod.mrf = groupW.id))).map
          (fun c => c.allowed)).Perm [JsNum.num 80, JsNum.num 90]) ∧
    groupW.averageAllowed = JsNum.num 85 ∧
    groupW3.eligibleClaimCount = 0 ∧
    groupW3.averageAllowed = JsNum.nan :=
  ⟨by decide,
    (average_round_trip [claimW1, claimW2] GroupingMethod.mrf [] groupW groupW_mem).1
      (by decide),
    by decide,
    ((average_round_trip [claimW3] GroupingMethod.mrf [] groupW3 groupW3_mem).2
      (by decide)).1⟩

/-- Group-level eligibility of the group a key names, read off the
accumulator map (false when the key has no group). -/
def groupIsEligible (claims : List ClaimRow) (gm : GroupingMethod) (k : String) : Bool :=
  match List.lookup k (buildGroupAccumulators claims gm) with
  | some g =>
    decide (g.eligibleClaimCount > 0) && decide (g.invalidClaimCount = 0) &&
      decide (g.deniedClaimCount = 0)
  | none => false

theorem mem_inner_fold_mono (cs : List ClaimRow) :
    ∀ (acc : List String) (a : String), a ∈ acc →
      a ∈ cs.foldl (fun acc c => if isEligibleClaim c then setAdd acc c.id else acc) acc := by
  induction cs with
  | nil => intro acc a ha; exact ha
  | cons c rest ih =>
    intro acc a ha
    rw [List.foldl_cons]
    by_cases he : isEligibleClaim c
    · rw [if_pos he]
      exact ih _ a ((mem_setAdd acc a c.id).mpr (Or.inl ha))
    · rw [if_neg he]
      exact ih _ a ha

theorem mem_inner_fold_of (cs : List ClaimRow) :
    ∀ (acc : List String) (c : ClaimRow), c ∈ cs → isEligibleClaim c = true →
      c.id ∈ cs.foldl (fun acc c => if isEligibleClaim c then setAdd acc c.id else acc) acc := by
  induction cs with
  | nil => intro acc c hc; cases hc
  | cons x rest ih =>
    intro acc c hc he
    rw [List.foldl_cons]
    rcases List.mem_cons.mp hc with rfl | hmem
    · rw [if_pos he]
      exact mem_inner_fold_mono rest _ c.id ((mem_setAdd acc c.id c.id).mpr (Or.inr rfl))
    · exact ih _ c hmem he

theorem mem_inner_fold_inv (cs : List ClaimRow) :
    ∀ (acc : List String) (a : String),
      a ∈ cs.foldl (fun acc c => if isEligibleClaim c then setAdd acc c.id else acc) acc →
      a ∈ acc ∨ ∃ c ∈ cs, isEligibleClaim c = true ∧ c.id = a := by
  induction cs with
  | nil => intro acc a ha; exact Or.inl ha
  | cons x rest ih =>
    intro acc a ha
    rw [List.foldl_cons] at ha
    by_cases he : isEligibleClaim x
    · rw [if_pos he] at ha
      rcases ih _ a ha with hacc | ⟨c, hc, hce, hcid⟩
      · rcases (mem_setAdd acc a x.id).mp hacc with h | rfl
        · exact Or.inl h
        · exact Or.inr ⟨x, List.mem_cons_self x rest, he, rfl⟩
      · exact Or.inr ⟨c, List.mem_cons_of_mem x hc, hce, hcid⟩
    · rw [if_neg he] at ha
      rcases ih _ a ha with hacc | ⟨c, hc, hce, hcid⟩
      · exact Or.inl hacc
      · exact Or.inr ⟨c, List.mem_cons_of_mem x hc, hce, hcid⟩

theorem mem_outer_fold_mono (gcm : List (String × List ClaimRow))
    (groups : List (String × GroupAccumulator)) :
    ∀ (acc : List String) (a : String), a ∈ acc →
      a ∈ groups.foldl (fun acc kv =>
        if kv.2.eligibleClaimCount > 0 ∧ kv.2.invalidClaimCount = 0 ∧
            kv.2.deniedClaimCount = 0 then
          ((List.lookup kv.1 gcm).getD []).foldl
            (fun acc c => if isEligibleClaim c then setAdd acc c.id else acc) acc
        else acc) acc := by
  induction groups with
  | nil => intro acc a ha; exact ha
  | cons kv rest ih =>
    intro acc a ha
    rw [List.foldl_cons]
    by_cases hc : kv.2.eligibleClaimCount > 0 ∧ kv.2.invalidClaimCount = 0 ∧
        kv.2.deniedClaimCount = 0
    · rw [if_pos hc]
      exact ih _ a (mem_inner_fold_mono _ _ a ha)
    · rw [if_neg hc]
      exact ih _ a ha

theorem mem_outer_fold_of (gcm : List (String × List ClaimRow))
    (groups : List (String × GroupAccumulator)) :
    ∀ (acc : List String) (kv : String × GroupAccumulator) (c : ClaimRow),
      kv ∈ groups →
      kv.2.eligibleClaimCount > 0 ∧ kv.2.invalidClaimCount = 0 ∧
        kv.2.deniedClaimCount = 0 →
      c ∈ (List.lookup kv.1 gcm).getD [] → isEligibleClaim c = true →
      c.id ∈ groups.foldl (fun acc kv =>
        if kv.2.eligibleClaimCount > 0 ∧ kv.2.invalidClaimCount = 0 ∧
            kv.2.deniedClaimCount = 0 then
          ((List.lookup kv.1 gcm).getD []).foldl
            (fun acc c => if isEligibleClaim c then setAdd acc c.id else acc) acc
        else acc) acc := by
  induction groups with
  | nil => intro acc kv c hkv; cases hkv
  | cons kv₀ rest ih =>
    intro acc kv c hkv hcond hc he
    rw [List.foldl_cons]
    rcases List.mem_cons.mp hkv with rfl | hmem
    · rw [if_pos hcond]
      exact mem_outer_fold_mono gcm rest _ c.id (mem_inner_fold_of _ _ c hc he)
    · by_cases hc0 : kv₀.2.eligibleClaimCount > 0 ∧ kv₀.2.invalidClaimCount = 0 ∧
          kv₀.2.deniedClaimCount = 0
      · rw [if_pos hc0]
        exact ih _ kv c hmem hcond hc he
      · rw [if_neg hc0]
        exact ih _ kv c hmem hcond hc he

theorem mem_outer_fold_inv (gcm : List (String × List ClaimRow))
    (groups : List (String × GroupAccumulator)) :
    ∀ (acc : List String) (a : String),
      a ∈ groups.foldl (fun acc kv =>
        if kv.2.eligibleClaimCount > 0 ∧ kv.2.invalidClaimCount = 0 ∧
            kv.2.deniedClaimCount = 0 then
          ((List.lookup kv.1 gcm).getD []).foldl
            (fun acc c => if isEligibleClaim c then setAdd acc c.id else acc) acc
        else acc) acc →
      a ∈ acc ∨ ∃ kv ∈ groups,
        (kv.2.eligibleClaimCount > 0 ∧ kv.2.invalidClaimCount = 0 ∧
          kv.2.deniedClaimCount = 0) ∧
        ∃ c ∈ (List.lookup kv.1 gcm).getD [], isEligibleClaim c = true ∧ c.id = a := by
  induction groups with
  | nil => intro acc a ha; exact Or.inl ha
  | cons kv₀ rest ih =>
    intro acc a ha
    rw [List.foldl_cons] at ha
    by_cases hc0 : kv₀.2.eligibleClaimCount > 0 ∧ kv₀.2.invalidClaimCount = 0 ∧
        kv₀.2.deniedClaimCount = 0
    · rw [if_pos hc0] at ha
      rcases ih _ a ha with hacc | ⟨kv, hkv, hcond, hrest⟩
      · rcases mem_inner_fold_inv _ _ a hacc with h | ⟨c, hc, hce, hcid⟩
        · exact Or.inl h
        · exact Or.inr ⟨kv₀, List.mem_cons_self kv₀ rest, hc0, c, hc, hce, hcid⟩
      · exact Or.inr ⟨kv, List.mem_cons_of_mem kv₀ hkv, hcond, hrest⟩
    · rw [if_neg hc0] at ha
      rcases ih _ a ha with hacc | ⟨kv, hkv, hcond, hrest⟩
      · exact Or.inl hacc
      · exact Or.inr ⟨kv, List.mem_cons_of_mem kv₀ hkv, hcond, hrest⟩

theorem claimMap_getD (claims : List ClaimRow) (gm : GroupingMethod) (k : String) :
    (List.lookup k (buildGroupClaimMap claims gm)).getD [] = keyClaims claims gm k := by
  rw [claimMap_lookup]
  cases h : keyClaims claims gm k with
  | nil => rfl
  | cons c rest => rfl

theorem sync_lookup (claims : List ClaimRow) (gm : GroupingMethod)
    (approvedClaims : List String) (k : String) (acc : GroupAccumulator)
    (h : List.lookup k (buildGroupAccumulators claims gm) = some acc) :
    List.lookup k (syncGroupApprovals claims gm approvedClaims) =
      some (if acc.eligibleClaimCount = 0 ∨ acc.invalidClaimCount > 0 ∨
          acc.deniedClaimCount > 0 then
        false
      else
        decide ((((List.lookup k (buildGroupClaimMap claims gm)).getD []).filter
            isEligibleClaim).length > 0) &&
          (((List.lookup k (buildGroupClaimMap claims gm)).getD []).filter
            isEligibleClaim).all (fun c => approvedClaims.contains c.id)) := by
  simp only [syncGroupApprovals]
  rw [lookup_map_entry, h]
  rfl

theorem sync_empty_false (claims : List ClaimRow) (gm : GroupingMethod) :
    ∀ p ∈ syncGroupApprovals claims gm [], p.2 = false := by
  intro p hp
  unfold syncGroupApprovals at hp
  obtain ⟨kv, hkv, rfl⟩ := List.mem_map.mp hp
  show (if _ then false else _) = false
  by_cases hcond : kv.2.eligibleClaimCount = 0 ∨ kv.2.invalidClaimCount > 0 ∨
      kv.2.deniedClaimCount > 0
  · rw [if_pos hcond]
  · rw [if_neg hcond]
    cases hE : ((List.lookup kv.1 (buildGroupClaimMap claims gm)).getD []).filter
        isEligibleClaim with
    | nil => simp [hE]
    | cons c rest => simp [hE, List.all_cons, List.contains]

/-- C2 (amended: the claim ids are assumed pairwise distinct; the
counterexample shows the unapproved-outside part fails when two claims in
different groups share one id): after `approveAllGroups`, every eligible
group reports approved, and every claim whose own group is not eligible is
left unapproved; a second `approveAllGroups` yields the identical state;
after `clearGroupApprovals` the claim-approval record is empty and no
group reports approved. -/
theorem approval_consistency (s : StoreState)
    (hids : (s.claims.map (fun c => c.id)).Nodup) :
    (∀ g ∈ storeGroupSummaries (approveAllGroups s),
      g.isEligible = true → g.approved = true) ∧
    (∀ c ∈ s.claims,
      groupIsEligible s.claims s.groupingMethod (getGroupKey c s.groupingMethod) = false →
      c.id ∉ (approveAllGroups s).approvedClaims) ∧
    approveAllGroups (approveAllGroups s) = approveAllGroups s ∧
    (clearGroupApprovals s).approvedClaims = [] ∧
    (∀ g ∈ storeGroupSummaries (clearGroupApprovals s), g.approved = false) := by
  have hnd : ((buildGroupAccumulators s.claims s.groupingMethod).map Prod.fst).Nodup := by
    unfold buildGroupAccumulators
    exact nodup_keys_foldUp _ _ _ s.claims
  refine ⟨?_, ?_, rfl, rfl, ?_⟩
  · intro g hg hel
    obtain ⟨⟨k, acc⟩, hkv, rfl⟩ := (mem_groupSummaries_iff _ _ _ g).mp hg
    have hlk : List.lookup k (buildGroupAccumulators s.claims s.groupingMethod) =
        some acc :=
      lookup_of_mem_nodup _ _ _ hnd hkv
    obtain ⟨-, hid, -, -, helig, -, -, -, -, -⟩ := acc_spec _ _ _ _ hlk
    have hel' : 0 < acc.eligibleClaimCount ∧ acc.invalidClaimCount = 0 ∧
        acc.deniedClaimCount = 0 := by
      have := hel
      simp only [toSummary, Bool.and_eq_true, decide_eq_true_eq] at this
      exact and_assoc.mp this
    show (List.lookup acc.id (syncGroupApprovals s.claims s.groupingMethod
      (approvedIdsOf s.claims s.groupingMethod))).getD false = true
    rw [hid, sync_lookup _ _ _ _ _ hlk,
      if_neg (by omega : ¬(acc.eligibleClaimCount = 0 ∨ acc.invalidClaimCount > 0 ∨
        acc.deniedClaimCount > 0))]
    rw [Option.getD_some, Bool.and_eq_true, decide_eq_true_eq]
    constructor
    · rw [claimMap_getD, ← List.countP_eq_length_filter, ← helig]
      exact hel'.1
    · rw [List.all_eq_true]
      intro c hcE
      have hcd : c ∈ (List.lookup k
          (buildGroupClaimMap s.claims s.groupingMethod)).getD [] :=
        List.mem_of_mem_filter hcE
      have hce : isEligibleClaim c = true := (List.mem_filter.mp hcE).2
      rw [contains_iff_mem]
      exact mem_outer_fold_of _ _ [] (k, acc) c hkv
        ⟨hel'.1, hel'.2.1, hel'.2.2⟩ hcd hce
  · intro c hc hgel hmem
    rcases mem_outer_fold_inv _ _ [] c.id hmem with h | ⟨⟨k, acc⟩, hkv, hcond, c', hc', he', hid'⟩
    · cases h
    · have hc'k : c' ∈ keyClaims s.claims s.groupingMethod k := by
        rw [← claimMap_getD]
        exact hc'
      have hc'claims : c' ∈ s.claims := List.mem_of_mem_filter hc'k
      have hkey : getGroupKey c' s.groupingMethod = k :=
        of_decide_eq_true (List.mem_filter.mp hc'k).2
      have hcc : c' = c := List.inj_on_of_nodup_map hids hc'claims hc hid'
      subst hcc
      have hlk : List.lookup k (buildGroupAccumulators s.claims s.groupingMethod) =
          some acc :=
        lookup_of_mem_nodup _ _ _ hnd hkv
      unfold groupIsEligible at hgel
      rw [hkey, hlk] at hgel
      have htrue : (decide (acc.eligibleClaimCount > 0) &&
          decide (acc.invalidClaimCount = 0) &&
          decide (acc.deniedClaimCount = 0)) = true := by
        simp only [Bool.and_eq_true, decide_eq_true_eq]
        exact ⟨⟨hcond.1, hcond.2.1⟩, hcond.2.2⟩
      rw [show (match some acc with
          | some g => decide (g.eligibleClaimCount > 0) &&
              decide (g.invalidClaimCount = 0) && decide (g.deniedClaimCount = 0)
          | none => false) = (decide (acc.eligibleClaimCount > 0) &&
            decide (acc.invalidClaimCount = 0) &&
            decide (acc.deniedClaimCount = 0)) from rfl, htrue] at hgel
      cases hgel
  · intro g hg
    obtain ⟨⟨k, acc⟩, hkv, rfl⟩ := (mem_groupSummaries_iff _ _ _ g).mp hg
    show (List.lookup acc.id (syncGroupApprovals s.claims s.groupingMethod [])).getD
      false = false
    exact lookup_getD_false _ (sync_empty_false _ _) _

/-- Eligible claim sharing its id with `dupClaimB` but living in a
different pricing group (different procedure code). -/
def dupClaimA : ClaimRow := { claimW1 with id := "DUP" }

/-- Denied claim with the same id as `dupClaimA`; its own singleton group
is not eligible. -/
def dupClaimB : ClaimRow :=
  { claimW1 with id := "DUP", claimStatus := "Denied", procedureCode := "99214" }

/-- Store holding the two duplicate-id claims. -/
def storeDup : StoreState :=
  { claims := [dupClaimA, dupClaimB], groupingMethod := GroupingMethod.mrf
    approvedClaims := [], groupApprovals := [] }

/-- Counterexample to C2 as stated: with two claims sharing one id,
`approveAllGroups` marks the shared id approved because of the eligible
twin, so the denied claim — which belongs to no eligible group — reads as
approved in the claim-approval record. -/
theorem approval_consistency_counterexample :
    dupClaimB ∈ storeDup.claims ∧
    groupIsEligible storeDup.claims storeDup.groupingMethod
      (getGroupKey dupClaimB storeDup.groupingMethod) = false ∧
    dupClaimB.id ∈ (approveAllGroups storeDup).approvedClaims :=
  ⟨by decide, by decide, by decide⟩

/-- Sample store with the two-claim sample set, no approvals, under the
MRF methodology. -/
def storeW : StoreState :=
  { claims := [claimW1, claimW2], groupingMethod := GroupingMethod.mrf
    approvedClaims := [], groupApprovals := [] }

/-- Summaries seen after approving all groups of the sample store. -/
def summariesApprovedW : List PricingGroup :=
  storeGroupSummaries (approveAllGroups storeW)

/-- The single group of `summariesApprovedW`. -/
def groupApprovedW : PricingGroup := summariesApprovedW.headD default

theorem summariesApprovedW_ne_nil : summariesApprovedW ≠ [] := by
  intro h
  have hl : summariesApprovedW.length = 1 := by decide
  rw [h] at hl
  cases hl

/-- Witness for the amended C2 at the sample store. -/
theorem approval_consistency_witness :
    ((storeW.claims.map (fun c => c.id)).Nodup) ∧
    groupApprovedW.isEligible = true ∧
    groupApprovedW.approved = true ∧
    (clearGroupApprovals storeW).approvedClaims = [] ∧
    approveAllGroups (approveAllGroups storeW) = approveAllGroups storeW := by
  refine ⟨by decide, by decide, ?_, ?_, ?_⟩
  · exact (approval_consistency storeW (by decide)).1 groupApprovedW
      (headD_mem _ _ summariesApprovedW_ne_nil) (by decide)
  · exact (approval_consistency storeW (by decide)).2.2.2.1
  · exact (approval_consistency storeW (by decide)).2.2.1

/-- C4: `setGroupingMethod` never changes the claim list (hence no claim
field or `isValid` flag) nor the claim-level approval record; when the
method actually changes, only the derived `groupApprovals` record is
recomputed, and it is recomputed from the claim-level record alone (the
prior group state does not appear in the equation); when the method is
unchanged the call is a no-op. -/
theorem setGroupingMethod_frame (s : StoreState) (m : GroupingMethod) :
    (setGroupingMethod s m).claims = s.claims ∧
    (setGroupingMethod s m).approvedClaims = s.approvedClaims ∧
    (m = s.groupingMethod → setGroupingMethod s m = s) ∧
    (m ≠ s.groupingMethod →
      (setGroupingMethod s m).groupingMethod = m ∧
      (setGroupingMethod s m).groupApprovals =
        syncGroupApprovals s.claims m s.approvedClaims) := by
  unfold setGroupingMethod
  by_cases h : m = s.groupingMethod
  · simp [h]
  · simp [h]

/-- Witness for C4 at the sample store, switching to the provider
methodology. -/
theorem setGroupingMethod_frame_witness :
    (setGroupingMethod storeW GroupingMethod.provider).claims = storeW.claims ∧
    (setGroupingMethod storeW GroupingMethod.provider).approvedClaims =
      storeW.approvedClaims ∧
    (setGroupingMethod storeW GroupingMethod.provider).groupApprovals =
      syncGroupApprovals storeW.claims GroupingMethod.provider storeW.approvedClaims :=
  ⟨(setGroupingMethod_frame storeW GroupingMethod.provider).1,
    (setGroupingMethod_frame storeW GroupingMethod.provider).2.1,
    ((setGroupingMethod_frame storeW GroupingMethod.provider).2.2.2 (by decide)).2⟩

end Frontend

namespace Backend

theorem groupByProcedure_skip (m : List (String × List ClaimInput)) (c : ClaimInput)
    (h : (c.procedureCode ≠ "" : Bool) = false) :
    (if c.procedureCode = "" then m
     else upsert m c.procedureCode (fun o => (o.getD []) ++ [c])) = m := by
  have hq : c.procedureCode = "" := by simpa using h
  rw [if_pos hq]

/-- C6: in MRF generation, a claim whose `procedureCode` is empty
contributes to no out-of-network entry, and a claim whose `providerId` is
empty or fails `Number.parseInt` contributes to no allowed-amount bucket:
both pipelines compute the same result on the input with those claims
filtered away (silent skip, no default, no error). -/
theorem skip_policy (claims : List ClaimInput) :
    groupClaimsByProcedure claims =
      groupClaimsByProcedure (claims.filter (fun c => c.procedureCode ≠ "")) ∧
    buildOutOfNetwork claims =
      buildOutOfNetwork (claims.filter (fun c => c.procedureCode ≠ "")) ∧
    buildAllowedBuckets claims =
      buildAllowedBuckets (claims.filter (fun c => (jsParseInt c.providerId).isSome)) ∧
    buildAllowedAmounts claims =
      buildAllowedAmounts (claims.filter (fun c => (jsParseInt c.providerId).isSome)) := by
  have h1 : groupClaimsByProcedure claims =
      groupClaimsByProcedure (claims.filter (fun c => c.procedureCode ≠ "")) := by
    unfold groupClaimsByProcedure
    rw [foldl_skip_filter _ (fun c => c.procedureCode ≠ "")
      (fun m c h => groupByProcedure_skip m c h)]
  have h3 : buildAllowedBuckets claims =
      buildAllowedBuckets (claims.filter (fun c => (jsParseInt c.providerId).isSome)) := by
    unfold buildAllowedBuckets
    rw [foldl_skip_filter _ (fun c => (jsParseInt c.providerId).isSome) ?_]
    intro m c h
    have hnone : jsParseInt c.providerId = none := by
      have h' : (jsParseInt c.providerId).isSome = false := h
      cases hp : jsParseInt c.providerId
      · rfl
      · rw [hp] at h'
        cases h'
    by_cases hid : c.providerId = ""
    · rw [if_pos hid]
    · rw [if_neg hid, hnone]
  refine ⟨h1, ?_, h3, ?_⟩
  · unfold buildOutOfNetwork
    rw [h1]
  · unfold buildAllowedAmounts
    rw [h3]

/-- Claims carrying one customer identity, in input order. -/
def customerClaimsOf (claims : List ClaimInput) (k : String) : List ClaimInput :=
  claims.filter (fun c => decide (customerIdOf c = k))

theorem customerMap_lookup (claims : List ClaimInput) (k : String) :
    List.lookup k (groupClaimsByCustomer claims) =
      match customerClaimsOf claims k with
      | [] => none
      | l => some l := by
  unfold groupClaimsByCustomer customerClaimsOf
  rw [lookup_foldUp]
  cases h : claims.filter (fun c => decide (customerIdOf c = k)) with
  | nil => rfl
  | cons c rest => simp [foldl_append_singleton]

theorem customerMap_nodup (claims : List ClaimInput) :
    ((groupClaimsByCustomer claims).map Prod.fst).Nodup := by
  unfold groupClaimsByCustomer
  exact nodup_keys_foldUp _ _ _ claims

/-- Inversion of membership in `generateMrfFiles`: every generated record
comes from a customer entry with a non-empty out-of-network list, and all
its fields are determined by that customer's claim sublist. -/
theorem mem_generateMrfFiles (today : String) (claims : List ClaimInput)
    (g : GeneratedMrf) (hg : g ∈ generateMrfFiles today claims) :
    ∃ k, g.customerId = k ∧
      customerClaimsOf claims k ≠ [] ∧
      g.claimCount = (customerClaimsOf claims k).length ∧
      g.customerName =
        (match (customerClaimsOf claims k).head? with
         | some c => if c.groupName ≠ "" then c.groupName else k
         | none => k) ∧
      g.data.reporting_entity_name = g.customerName ∧
      g.data.out_of_network = buildOutOfNetwork (customerClaimsOf claims k) ∧
      g.data.out_of_network.length ≠ 0 := by
  obtain ⟨⟨k, cs⟩, hkv, hf⟩ := List.mem_filterMap.mp hg
  have hlk : List.lookup k (groupClaimsByCustomer claims) = some cs :=
    lookup_of_mem_nodup _ _ _ (customerMap_nodup claims) hkv
  have hcs : cs = customerClaimsOf claims k := by
    rw [customerMap_lookup] at hlk
    cases h : customerClaimsOf claims k with
    | nil => rw [h] at hlk; cases hlk
    | cons c rest =>
      rw [h] at hlk
      exact (Option.some.inj hlk).symm
  simp only [] at hf
  by_cases h0 : (buildOutOfNetwork cs).length = 0
  · rw [if_pos h0] at hf
    cases hf
  · rw [if_neg h0] at hf
    have hrec := Option.some.inj hf
    subst hrec
    refine ⟨k, rfl, ?_, ?_, ?_, rfl, ?_, ?_⟩
    · intro hnil
      rw [← hcs] at hnil
      rw [hnil] at h0
      exact h0 rfl
    · show cs.length = _
      rw [hcs]
    · show (match cs.head? with
        | some c => if c.groupName ≠ "" then c.groupName else k
        | none => k) = _
      rw [hcs]
    · show buildOutOfNetwork cs = _
      rw [hcs]
    · show (buildOutOfNetwork cs).length ≠ 0
      exact h0

/-- Sample backend claim generating a full allowed-amount bucket. -/
def mrfClaimGood : ClaimInput :=
  { claimId := "1", groupId := "G1", groupName := "Alpha Group", planName := "Plan A"
    planId := "PLA001", placeOfService := "Office", claimType := "Professional"
    procedureCode := "99213", providerId := "1111111111", providerName := "Provider One"
    billed := JsNum.num 100, allowed := JsNum.num 80, paid := JsNum.num 60 }

/-- Sample backend claim with no procedure code: same customer as
`mrfClaimGood`, counted but contributing no document data. -/
def mrfClaimNoProc : ClaimInput := { mrfClaimGood with claimId := "2", procedureCode := "" }

/-- C10: each generated document's `claimCount` is the length of the whole
claim sublist grouped under that customer identity, including claims that
contribute nothing to the document body; the concrete part shows a
document with `claimCount = 2` whose out-of-network section represents a
single claim (its sibling lacks a procedure code). -/
theorem claimCount_includes_skipped :
    (∀ (today : String) (claims : List ClaimInput) (g : GeneratedMrf),
      g ∈ generateMrfFiles today claims →
      g.claimCount =
        (claims.filter (fun c => decide (customerIdOf c = g.customerId))).length) ∧
    ((generateMrfFiles "2026-01-01" [mrfClaimGood, mrfClaimNoProc]).map
      (fun g => (g.claimCount, g.data.out_of_network.length,
        (g.data.out_of_network.map (fun e => e.allowed_amounts.length)).sum))) =
      [(2, 1, 1)] := by
  constructor
  · intro today claims g hg
    obtain ⟨k, hk, -, hcount, -, -, -, -⟩ := mem_generateMrfFiles today claims g hg
    rw [hk]
    exact hcount
  · decide

instance : Inhabited GeneratedMrf :=
  ⟨{ customerId := "", customerKey := "", customerName := "", fileName := ""
     claimCount := 0
     data := { reporting_entity_name := "", reporting_entity_type := ""
               last_updated_on := "", version := "", out_of_network := [] } }⟩

/-- Documents generated from the good claim and its procedure-less
sibling. -/
def genW : List GeneratedMrf :=
  generateMrfFiles "2026-01-01" [mrfClaimGood, mrfClaimNoProc]

/-- The single document of `genW`. -/
def gMrfW : GeneratedMrf := genW.headD default

theorem genW_ne_nil : genW ≠ [] := by
  intro h
  have hl : genW.length = 1 := by decide
  rw [h] at hl
  cases hl

theorem gMrfW_mem : gMrfW ∈ genW := headD_mem genW default genW_ne_nil

/-- Witness for C10 at the two-claim submission. -/
theorem claimCount_includes_skipped_witness :
    gMrfW ∈ genW ∧
    gMrfW.claimCount = ([mrfClaimGood, mrfClaimNoProc].filter
      (fun c => decide (customerIdOf c = gMrfW.customerId))).length :=
  ⟨gMrfW_mem,
    claimCount_includes_skipped.1 "2026-01-01" [mrfClaimGood, mrfClaimNoProc] gMrfW gMrfW_mem⟩

/-- Customer claim with an empty group name, first in its subset. -/
def mrfClaimNoName : ClaimInput := { mrfClaimGood with claimId := "3", groupName := "" }

/-- Later claim of the same customer carrying the group name "Acme". -/
def mrfClaimAcme : ClaimInput := { mrfClaimGood with claimId := "4", groupName := "Acme" }

/-- Counterexample to C7 as stated: the subset's first non-empty group name
is "Acme", but the generated document's reporting-entity name is the
customer id "G1", because the code reads only the first claim's group
name. -/
theorem reporting_entity_counterexample :
    ((generateMrfFiles "2026-01-01" [mrfClaimNoName, mrfClaimAcme]).map
      (fun g => g.data.reporting_entity_name)) = ["G1"] ∧
    (([mrfClaimNoName, mrfClaimAcme].filter (fun c => c.groupName ≠ "")).map
      (fun c => c.groupName)) = ["Acme"] ∧
    ("G1" : String) ≠ "Acme" :=
  ⟨by decide, by decide, by decide⟩

/-- C7 (amended: the code uses the first claim of the customer subset, not
the first non-empty name): each generated document's reporting-entity name
is the subset's first claim's group name when that is non-empty, else the
customer id. -/
theorem reporting_entity_name_rule (today : String) (claims : List ClaimInput)
    (g : GeneratedMrf) (hg : g ∈ generateMrfFiles today claims) :
    g.data.reporting_entity_name =
      (match (claims.filter (fun c => decide (customerIdOf c = g.customerId))).head? with
       | some c => if c.groupName ≠ "" then c.groupName else g.customerId
       | none => g.customerId) := by
  obtain ⟨k, hk, -, -, hname, hrep, -, -⟩ := mem_generateMrfFiles today claims g hg
  rw [hrep, hname, hk]
  rfl

/-- The single document generated from the no-name/Acme pair. -/
def gNameW : GeneratedMrf :=
  (generateMrfFiles "2026-01-01" [mrfClaimNoName, mrfClaimAcme]).headD default

theorem gNameW_mem : gNameW ∈ generateMrfFiles "2026-01-01" [mrfClaimNoName, mrfClaimAcme] := by
  apply headD_mem
  intro h
  have hl : (generateMrfFiles "2026-01-01" [mrfClaimNoName, mrfClaimAcme]).length = 1 := by
    decide
  rw [h] at hl
  cases hl

/-- Witness for the amended C7 at the no-name/Acme pair. -/
theorem reporting_entity_name_rule_witness :
    gNameW ∈ generateMrfFiles "2026-01-01" [mrfClaimNoName, mrfClaimAcme] ∧
    gNameW.data.reporting_entity_name =
      (match ([mrfClaimNoName, mrfClaimAcme].filter
          (fun c => decide (customerIdOf c = gNameW.customerId))).head? with
       | some c => if c.groupName ≠ "" then c.groupName else gNameW.customerId
       | none => gNameW.customerId) :=
  ⟨gNameW_mem,
    reporting_entity_name_rule "2026-01-01" [mrfClaimNoName, mrfClaimAcme] gNameW gNameW_mem⟩

/-- Second customer's claim for the partial-persistence scenario. -/
def mrfClaimG2 : ClaimInput :=
  { mrfClaimGood with
    claimId := "5"
    groupId := "G2"
    groupName := "Beta Group"
    providerId := "2222222222" }

/-- C8 evidence: a submission generating two customer documents whose
second save fails persists exactly one document and still answers 500 —
the write set is neither complete nor empty, contradicting the
all-or-nothing requirement. -/
theorem partial_persist_on_failure :
    (generateMrfFiles "2026-01-01" [mrfClaimGood, mrfClaimG2]).length = 2 ∧
    (postMrf "2026-01-01" [mrfClaimGood, mrfClaimG2] (fun i => i == 1)).persisted.length = 1 ∧
    (postMrf "2026-01-01" [mrfClaimGood, mrfClaimG2] (fun i => i == 1)).status = 500 :=
  ⟨by decide, by decide, by decide⟩

theorem jsBasename_no_slash (fileName : String) : '/' ∉ (jsBasename fileName).data := by
  intro h
  unfold jsBasename at h
  rw [show (String.mk (((fileName.data.reverse.dropWhile
      (· = '/')).takeWhile (· ≠ '/')).reverse)).data =
    ((fileName.data.reverse.dropWhile (· = '/')).takeWhile (· ≠ '/')).reverse from rfl] at h
  have h2 := List.mem_reverse.mp h
  have h3 := List.mem_takeWhile_imp h2
  simp at h3

theorem normSegs_aux (l : List String) :
    ∀ (acc : List String), (∀ seg ∈ l, ¬(seg = "" ∨ seg = "." ∨ seg = "..")) →
      l.foldl (fun acc seg =>
        if seg = "" ∨ seg = "." then acc
        else if seg = ".." then acc.dropLast
        else acc ++ [seg]) acc = acc ++ l := by
  induction l with
  | nil => intro acc _; simp
  | cons x rest ih =>
    intro acc hn
    have hx := hn x (List.mem_cons_self x rest)
    rw [List.foldl_cons, if_neg (fun hh => hx (hh.elim Or.inl (fun h2 => Or.inr (Or.inl h2)))),
      if_neg (fun hh => hx (Or.inr (Or.inr hh)))]
    rw [ih (acc ++ [x]) (fun seg hseg => hn seg (List.mem_cons_of_mem x hseg))]
    simp

theorem normSegs_normal (l : List String)
    (h : ∀ seg ∈ l, ¬(seg = "" ∨ seg = "." ∨ seg = "..")) : normSegs l = l := by
  unfold normSegs
  rw [normSegs_aux l [] h]
  simp

theorem resolveRead_cases (base : List String) (key fileName : String)
    (hbase : ∀ seg ∈ base, ¬(seg = "" ∨ seg = "." ∨ seg = ".."))
    (hkey : ¬(key = "" ∨ key = "." ∨ key = "..")) :
    resolveRead base key fileName =
      (if jsBasename fileName = "" ∨ jsBasename fileName = "." then base ++ [key]
       else if jsBasename fileName = ".." then base
       else base ++ [key, jsBasename fileName]) := by
  unfold resolveRead normSegs
  have hdir : ∀ seg ∈ base ++ [key], ¬(seg = "" ∨ seg = "." ∨ seg = "..") := by
    intro seg hseg
    rcases List.mem_append.mp hseg with hb | hk
    · exact hbase seg hb
    · rw [List.mem_singleton.mp hk]
      exact hkey
  have hsplit : base ++ [key, jsBasename fileName] =
      (base ++ [key]) ++ [jsBasename fileName] := by simp
  rw [hsplit, List.foldl_append, normSegs_aux (base ++ [key]) [] hdir, List.nil_append]
  by_cases h1 : jsBasename fileName = "" ∨ jsBasename fileName = "."
  · rw [if_pos h1]
    simp only [List.foldl_cons, List.foldl_nil, if_pos h1]
  · rw [if_neg h1]
    by_cases h2 : jsBasename fileName = ".."
    · rw [if_pos h2]
      simp only [List.foldl_cons, List.foldl_nil, if_neg h1, if_pos h2,
        List.dropLast_concat]
    · rw [if_neg h2]
      simp only [List.foldl_cons, List.foldl_nil, if_neg h1, if_neg h2]

/-- C9: `MrfStorage.readFile` resolves only within the named customer's own
directory.  The filesystem is a map from normalized paths to bytes whose
well-formedness hypothesis says the customer directory and its ancestors
are not themselves readable files.  Every successful read is of a direct,
separator-free, non-dot child of the customer directory — `path.basename`
strips any directory components, so no input escapes it — and the result
is the null signal whenever the index lacks the customer or the underlying
read fails. -/
theorem readFile_confined (fs : List String → Option String) (base : List String)
    (index : List (String × MrfCustomerRecord)) (customerId fileName : String)
    (hbase : ∀ seg ∈ base, ¬(seg = "" ∨ seg = "." ∨ seg = ".."))
    (hwf : ∀ cust, List.lookup customerId index = some cust →
      (¬(cust.key = "" ∨ cust.key = "." ∨ cust.key = "..")) ∧
      ∀ n, fs ((base ++ [cust.key]).take n) = none) :
    (List.lookup customerId index = none →
      readFileM fs base index customerId fileName = none) ∧
    (∀ cust, List.lookup customerId index = some cust →
      (fs (resolveRead base cust.key fileName) = none →
        readFileM fs base index customerId fileName = none) ∧
      (∀ content, readFileM fs base index customerId fileName = some content →
        jsBasename fileName ≠ "" ∧ jsBasename fileName ≠ "." ∧
        jsBasename fileName ≠ ".." ∧ '/' ∉ (jsBasename fileName).data ∧
        fs (base ++ [cust.key, jsBasename fileName]) = some content)) := by
  constructor
  · intro h
    unfold readFileM
    rw [h]
  · intro cust hlk
    obtain ⟨hkey, hdirs⟩ := hwf cust hlk
    have hread : readFileM fs base index customerId fileName =
        fs (resolveRead base cust.key fileName) := by
      unfold readFileM
      rw [hlk]
    constructor
    · intro h
      rw [hread, h]
    · intro content hc
      rw [hread, resolveRead_cases base cust.key fileName hbase hkey] at hc
      by_cases h1 : jsBasename fileName = "" ∨ jsBasename fileName = "."
      · rw [if_pos h1] at hc
        have := hdirs (base ++ [cust.key]).length
        rw [List.take_length] at this
        rw [this] at hc
        cases hc
      · rw [if_neg h1] at hc
        by_cases h2 : jsBasename fileName = ".."
        · rw [if_pos h2] at hc
          have := hdirs base.length
          rw [List.take_left] at this
          rw [this] at hc
          cases hc
        · rw [if_neg h2] at hc
          exact ⟨fun hh => h1 (Or.inl hh), fun hh => h1 (Or.inr hh), h2,
            jsBasename_no_slash fileName, hc⟩

/-- Base directory of the witness filesystem. -/
def baseW9 : List String := ["data", "mrf"]

/-- Witness customer record. -/
def custW9 : MrfCustomerRecord := { id := "G1", key := "g1", name := "Alpha Group", files := [] }

/-- Witness storage index. -/
def indexW9 : List (String × MrfCustomerRecord) := [("G1", custW9)]

/-- Witness filesystem: exactly one readable file inside the customer's
directory. -/
def fsW9 : List String → Option String :=
  fun p => if p = ["data", "mrf", "g1", "doc.json"] then some "PAYLOAD" else none

theorem fsW9_dirs : ∀ n, fsW9 ((baseW9 ++ [custW9.key]).take n) = none := by
  intro n
  match n with
  | 0 => decide
  | 1 => decide
  | 2 => decide
  | (m + 3) =>
    have h3 : (baseW9 ++ [custW9.key]).length = 3 := by decide
    rw [List.take_of_length_le (le_of_eq_of_le h3 (by omega))]
    decide

theorem indexW9_wf : ∀ cust, List.lookup "G1" indexW9 = some cust →
    (¬(cust.key = "" ∨ cust.key = "." ∨ cust.key = "..")) ∧
    ∀ n, fsW9 ((baseW9 ++ [cust.key]).take n) = none := by
  intro cust hc
  have h2 : List.lookup "G1" indexW9 = some custW9 := by decide
  rw [h2] at hc
  cases Option.some.inj hc
  exact ⟨by decide, fsW9_dirs⟩

/-- Witness for C9: a traversal-laden file name resolves to the customer's
own `doc.json`; an unknown customer and a bare `..` both yield null. -/
theorem readFile_confined_witness :
    readFileM fsW9 baseW9 indexW9 "G1" "../../secret/../doc.json" = some "PAYLOAD" ∧
    jsBasename "../../secret/../doc.json" = "doc.json" ∧
    fsW9 (baseW9 ++ [custW9.key, jsBasename "../../secret/../doc.json"]) = some "PAYLOAD" ∧
    readFileM fsW9 baseW9 indexW9 "G2" "doc.json" = none ∧
    readFileM fsW9 baseW9 indexW9 "G1" ".." = none := by
  refine ⟨by decide, by decide, ?_, ?_, by decide⟩
  · exact (((readFile_confined fsW9 baseW9 indexW9 "G1" "../../secret/../doc.json"
      (by decide) indexW9_wf).2 custW9 (by decide)).2 "PAYLOAD" (by decide)).2.2.2.2
  · refine (readFile_confined fsW9 baseW9 indexW9 "G2" "doc.json" (by decide) ?_).1 (by decide)
    intro cust hc
    rw [show List.lookup "G2" indexW9 = none by decide] at hc
    cases hc

end Backend
